import Mathlib

namespace Docopt

/-- Python values appearing in the docopt source: `None`, booleans, strings and
lists of values (argument accumulation lists). -/
inductive Value where
  | vnone : Value
  | vbool : Bool → Value
  | vstr : String → Value
  | vlist : List Value → Value

mutual

def Value.decEq : (a b : Value) → Decidable (a = b)
  | .vnone, .vnone => isTrue rfl
  | .vnone, .vbool _ => isFalse (by intro h; exact Value.noConfusion h)
  | .vnone, .vstr _ => isFalse (by intro h; exact Value.noConfusion h)
  | .vnone, .vlist _ => isFalse (by intro h; exact Value.noConfusion h)
  | .vbool _, .vnone => isFalse (by intro h; exact Value.noConfusion h)
  | .vbool a, .vbool b =>
      if h : a = b then isTrue (by rw [h])
      else isFalse (by intro hh; injection hh; contradiction)
  | .vbool _, .vstr _ => isFalse (by intro h; exact Value.noConfusion h)
  | .vbool _, .vlist _ => isFalse (by intro h; exact Value.noConfusion h)
  | .vstr _, .vnone => isFalse (by intro h; exact Value.noConfusion h)
  | .vstr _, .vbool _ => isFalse (by intro h; exact Value.noConfusion h)
  | .vstr a, .vstr b =>
      if h : a = b then isTrue (by rw [h])
      else isFalse (by intro hh; injection hh; contradiction)
  | .vstr _, .vlist _ => isFalse (by intro h; exact Value.noConfusion h)
  | .vlist _, .vnone => isFalse (by intro h; exact Value.noConfusion h)
  | .vlist _, .vbool _ => isFalse (by intro h; exact Value.noConfusion h)
  | .vlist _, .vstr _ => isFalse (by intro h; exact Value.noConfusion h)
  | .vlist a, .vlist b =>
      match Value.decEqList a b with
      | isTrue h => isTrue (by rw [h])
      | isFalse h => isFalse (by intro hh; injection hh; contradiction)

def Value.decEqList : (a b : List Value) → Decidable (a = b)
  | [], [] => isTrue rfl
  | [], _ :: _ => isFalse (by intro h; exact List.noConfusion h)
  | _ :: _, [] => isFalse (by intro h; exact List.noConfusion h)
  | a :: as', b :: bs =>
      match Value.decEq a b, Value.decEqList as' bs with
      | isTrue h1, isTrue h2 => isTrue (by rw [h1, h2])
      | isFalse h1, _ => isFalse (by intro hh; injection hh; contradiction)
      | _, isFalse h2 => isFalse (by intro hh; injection hh; contradiction)

end

instance : DecidableEq Value := Value.decEq

/-- The `Option` leaf's data (src/docopt.py lines 148-153): short form, long form,
argcount (asserted 0 or 1 in the source) and current value. -/
structure Opt where
  short : Option String
  long : Option String
  argcount : Nat
  value : Value
deriving DecidableEq

/-- The pattern tree (src/docopt.py classes Argument, Command, Option, AnyOptions,
Required, Optional, OneOrMore, Either). `AnyOptions` is created with no children,
so it is modelled as a nullary node. -/
inductive Pattern where
  | argument : Option String → Value → Pattern
  | command : String → Value → Pattern
  | option : Opt → Pattern
  | anyOptions : Pattern
  | required : List Pattern → Pattern
  | optionalP : List Pattern → Pattern
  | oneOrMore : List Pattern → Pattern
  | either : List Pattern → Pattern

mutual

def Pattern.decEq : (a b : Pattern) → Decidable (a = b)
  | .argument n v, .argument n2 v2 =>
      if h : n = n2 ∧ v = v2 then isTrue (by rw [h.1, h.2])
      else isFalse (by intro hh; injection hh with h1 h2; exact h ⟨h1, h2⟩)
  | .argument _ _, .command _ _ => isFalse (by intro h; exact Pattern.noConfusion h)
  | .argument _ _, .option _ => isFalse (by intro h; exact Pattern.noConfusion h)
  | .argument _ _, .anyOptions => isFalse (by intro h; exact Pattern.noConfusion h)
  | .argument _ _, .required _ => isFalse (by intro h; exact Pattern.noConfusion h)
  | .argument _ _, .optionalP _ => isFalse (by intro h; exact Pattern.noConfusion h)
  | .argument _ _, .oneOrMore _ => isFalse (by intro h; exact Pattern.noConfusion h)
  | .argument _ _, .either _ => isFalse (by intro h; exact Pattern.noConfusion h)
  | .command n v, .command n2 v2 =>
      if h : n = n2 ∧ v = v2 then isTrue (by rw [h.1, h.2])
      else isFalse (by intro hh; injection hh with h1 h2; exact h ⟨h1, h2⟩)
  | .command _ _, .argument _ _ => isFalse (by intro h; exact Pattern.noConfusion h)
  | .command _ _, .option _ => isFalse (by intro h; exact Pattern.noConfusion h)
  | .command _ _, .anyOptions => isFalse (by intro h; exact Pattern.noConfusion h)
  | .command _ _, .required _ => isFalse (by intro h; exact Pattern.noConfusion h)
  | .command _ _, .optionalP _ => isFalse (by intro h; exact Pattern.noConfusion h)
  | .command _ _, .oneOrMore _ => isFalse (by intro h; exact Pattern.noConfusion h)
  | .command _ _, .either _ => isFalse (by intro h; exact Pattern.noConfusion h)
  | .option o, .option o2 =>
      if h : o = o2 then isTrue (by rw [h])
      else isFalse (by intro hh; injection hh; contradiction)
  | .option _, .argument _ _ => isFalse (by intro h; exact Pattern.noConfusion h)
  | .option _, .command _ _ => isFalse (by intro h; exact Pattern.noConfusion h)
  | .option _, .anyOptions => isFalse (by intro h; exact Pattern.noConfusion h)
  | .option _, .required _ => isFalse (by intro h; exact Pattern.noConfusion h)
  | .option _, .optionalP _ => isFalse (by intro h; exact Pattern.noConfusion h)
  | .option _, .oneOrMore _ => isFalse (by intro h; exact Pattern.noConfusion h)
  | .option _, .either _ => isFalse (by intro h; exact Pattern.noConfusion h)
  | .anyOptions, .anyOptions => isTrue rfl
  | .anyOptions, .argument _ _ => isFalse (by intro h; exact Pattern.noConfusion h)
  | .anyOptions, .command _ _ => isFalse (by intro h; exact Pattern.noConfusion h)
  | .anyOptions, .option _ => isFalse (by intro h; exact Pattern.noConfusion h)
  | .anyOptions, .required _ => isFalse (by intro h; exact Pattern.noConfusion h)
  | .anyOptions, .optionalP _ => isFalse (by intro h; exact Pattern.noConfusion h)
  | .anyOptions, .oneOrMore _ => isFalse (by intro h; exact Pattern.noConfusion h)
  | .anyOptions, .either _ => isFalse (by intro h; exact Pattern.noConfusion h)
  | .required cs, .required cs2 =>
      match Pattern.decEqList cs cs2 with
      | isTrue h => isTrue (by rw [h])
      | isFalse h => isFalse (by intro hh; injection hh; contradiction)
  | .required _, .argument _ _ => isFalse (by intro h; exact Pattern.noConfusion h)
  | .required _, .command _ _ => isFalse (by intro h; exact Pattern.noConfusion h)
  | .required _, .option _ => isFalse (by intro h; exact Pattern.noConfusion h)
  | .required _, .anyOptions => isFalse (by intro h; exact Pattern.noConfusion h)
  | .required _, .optionalP _ => isFalse (by intro h; exact Pattern.noConfusion h)
  | .required _, .oneOrMore _ => isFalse (by intro h; exact Pattern.noConfusion h)
  | .required _, .either _ => isFalse (by intro h; exact Pattern.noConfusion h)
  | .optionalP cs, .optionalP cs2 =>
      match Pattern.decEqList cs cs2 with
      | isTrue h => isTrue (by rw [h])
      | isFalse h => isFalse (by intro hh; injection hh; contradiction)
  | .optionalP _, .argument _ _ => isFalse (by intro h; exact Pattern.noConfusion h)
  | .optionalP _, .command _ _ => isFalse (by intro h; exact Pattern.noConfusion h)
  | .optionalP _, .option _ => isFalse (by intro h; exact Pattern.noConfusion h)
  | .optionalP _, .anyOptions => isFalse (by intro h; exact Pattern.noConfusion h)
  | .optionalP _, .required _ => isFalse (by intro h; exact Pattern.noConfusion h)
  | .optionalP _, .oneOrMore _ => isFalse (by intro h; exact Pattern.noConfusion h)
  | .optionalP _, .either _ => isFalse (by intro h; exact Pattern.noConfusion h)
  | .oneOrMore cs, .oneOrMore cs2 =>
      match Pattern.decEqList cs cs2 with
      | isTrue h => isTrue (by rw [h])
      | isFalse h => isFalse (by intro hh; injection hh; contradiction)
  | .oneOrMore _, .argument _ _ => isFalse (by intro h; exact Pattern.noConfusion h)
  | .oneOrMore _, .command _ _ => isFalse (by intro h; exact Pattern.noConfusion h)
  | .oneOrMore _, .option _ => isFalse (by intro h; exact Pattern.noConfusion h)
  | .oneOrMore _, .anyOptions => isFalse (by intro h; exact Pattern.noConfusion h)
  | .oneOrMore _, .required _ => isFalse (by intro h; exact Pattern.noConfusion h)
  | .oneOrMore _, .optionalP _ => isFalse (by intro h; exact Pattern.noConfusion h)
  | .oneOrMore _, .either _ => isFalse (by intro h; exact Pattern.noConfusion h)
  | .either cs, .either cs2 =>
      match Pattern.decEqList cs cs2 with
      | isTrue h => isTrue (by rw [h])
      | isFalse h => isFalse (by intro hh; injection hh; contradiction)
  | .either _, .argument _ _ => isFalse (by intro h; exact Pattern.noConfusion h)
  | .either _, .command _ _ => isFalse (by intro h; exact Pattern.noConfusion h)
  | .either _, .option _ => isFalse (by intro h; exact Pattern.noConfusion h)
  | .either _, .anyOptions => isFalse (by intro h; exact Pattern.noConfusion h)
  | .either _, .required _ => isFalse (by intro h; exact Pattern.noConfusion h)
  | .either _, .optionalP _ => isFalse (by intro h; exact Pattern.noConfusion h)
  | .either _, .oneOrMore _ => isFalse (by intro h; exact Pattern.noConfusion h)

def Pattern.decEqList : (a b : List Pattern) → Decidable (a = b)
  | [], [] => isTrue rfl
  | [], _ :: _ => isFalse (by intro h; exact List.noConfusion h)
  | _ :: _, [] => isFalse (by intro h; exact List.noConfusion h)
  | a :: as', b :: bs =>
      match Pattern.decEq a b, Pattern.decEqList as' bs with
      | isTrue h1, isTrue h2 => isTrue (by rw [h1, h2])
      | isFalse h1, _ => isFalse (by intro hh; injection hh; contradiction)
      | _, isFalse h2 => isFalse (by intro hh; injection hh; contradiction)

end

instance : DecidableEq Pattern := Pattern.decEq

/-- Python `type(l) is Argument`. -/
def Pattern.isArgument : Pattern → Bool
  | .argument _ _ => true
  | _ => false

/-- Python `type(l) is Command`. -/
def Pattern.isCommand : Pattern → Bool
  | .command _ _ => true
  | _ => false

/-- Python `type(l) is Option`. -/
def Pattern.isOption : Pattern → Bool
  | .option _ => true
  | _ => false

/-- The `name` attribute of an `Argument` leaf. The source only reads it on
Argument objects; other nodes answer `none` here. -/
def Pattern.argName : Pattern → Option String
  | .argument n _ => n
  | _ => none

/-- The `value` attribute of an `Argument` leaf (`vnone` on other nodes, which the
source never reads it from). -/
def Pattern.argValue : Pattern → Value
  | .argument _ v => v
  | _ => .vnone

/-- Option.name (src/docopt.py lines 165-167): `self.long or self.short`. Python
truthiness sends an empty-string `long` through to `short`. -/
def Opt.name (o : Opt) : Option String :=
  match o.long with
  | some s => if s = "" then o.short else some s
  | none => o.short

/-- Python `list.remove(x)`: drop the first element equal to `x`. The source only
calls it with an element known to be present; an absent `x` leaves the list as is. -/
def pyRemove (x : Pattern) : List Pattern → List Pattern
  | [] => []
  | y :: ys => if y = x then ys else y :: pyRemove x ys

/-- Update of the first element satisfying `p` (models the source mutating the
shared `same_name[0]` object held inside the `collected` list, src line 120). -/
def replaceFirst (p : Pattern → Bool) (f : Pattern → Pattern) : List Pattern → List Pattern
  | [] => []
  | x :: xs => if p x then f x :: xs else x :: replaceFirst p f xs

/-- `same_name[0].value += [args[0].value]` (src line 120). On a non-list value the
source would raise TypeError; that state is unreachable in the docopt pipeline,
where same-name collected entries of an accumulating Argument are always lists. -/
def Value.pyAppend : Value → Value → Value
  | .vlist vs, x => .vlist (vs ++ [x])
  | v, _ => v

/-- `type(a) is Argument and a.name == self.name` (src lines 117-118). -/
def sameNameArg (nm : Option String) (p : Pattern) : Bool :=
  p.isArgument && p.argName == nm

/-- `type(l) is Option and (self.short, self.long) == (l.short, l.long)`
(src lines 160-161): Option.match compares only the short/long pair. -/
def optMatches (o : Opt) (l : Pattern) : Bool :=
  match l with
  | .option o2 => o.short == o2.short && o.long == o2.long
  | _ => false

/-- The while-loop of OneOrMore.match (src lines 212-221), with the child's match
function abstracted as `f` and an explicit iteration budget. The loop body runs
once per recursion: match, bump `times` on success, stop when the residue equals
the previous one (`l_ == l`), otherwise continue while matched. A budget of
`2 * left.length + 3` always reaches the loop's own exit because a match only
removes leaves (see `oomLoop_fuel_irrel`). Returns `(times, l, c)`. -/
def oomLoop (f : List Pattern → List Pattern → Bool × List Pattern × List Pattern) :
    Nat → List Pattern → List Pattern → Option (List Pattern) → Nat →
    Nat × List Pattern × List Pattern
  | 0, l, c, _, times => (times, l, c)
  | fuel + 1, l, c, lPrev, times =>
      let r := f l c
      let times' := times + (if r.1 then 1 else 0)
      if some r.2.1 = lPrev then (times', r.2.1, r.2.2)
      else if r.1 then oomLoop f fuel r.2.1 r.2.2 (some r.2.1) times'
      else (times', r.2.1, r.2.2)

/-- Python `min(xs, key=...)` on a nonempty list: keeps the current best and
replaces it only on a strictly smaller key, so the first minimum wins. -/
def pyMinBy {α : Type} (key : α → Nat) (x : α) : List α → α
  | [] => x
  | y :: ys => if key y < key x then pyMinBy key y ys else pyMinBy key x ys

mutual

/-- `match(left, collected)` of every pattern node, returning
`(matched, left', collected')`. Each alternative is translated from the
corresponding `match` method in src/docopt.py: Argument lines 109-124, Command
lines 136-142, Option lines 155-163, AnyOptions lines 176-179, Required lines
184-192, Optional lines 197-202, OneOrMore lines 207-224 (the source asserts
exactly one child there; other shapes are modelled as a plain failure), Either
lines 229-238. The `collected = [] if collected is None else collected` defaulting
is outside the model: callers pass the list. This function treats the collected
leaves as plain values, which renders the source's `copy(...)` calls as isolating
copies; that is exact for every property that does not observe the one in-place
mutation of the matcher, line 120's `same_name[0].value += [args[0].value]` on an
Argument object shared through those shallow copies. The object-sharing semantics
of that line is modelled separately by `pmatchS` below, and `C2` and `C8` are
settled against it. -/
def pmatch : Pattern → List Pattern → List Pattern → Bool × List Pattern × List Pattern
  | .argument nm v, left, collected =>
      match left.find? Pattern.isArgument with
      | none => (false, left, collected)
      | some a0 =>
          let left' := pyRemove a0 left
          match v with
          | .vlist _ =>
              if (collected.filter (sameNameArg nm)).isEmpty then
                (true, left', collected ++ [.argument nm (.vlist [a0.argValue])])
              else
                (true, left', replaceFirst (sameNameArg nm)
                  (fun a => .argument a.argName (a.argValue.pyAppend a0.argValue)) collected)
          | _ => (true, left', collected ++ [.argument nm a0.argValue])
  | .command nm _, left, collected =>
      match left.find? Pattern.isArgument with
      | none => (false, left, collected)
      | some a0 =>
          if a0.argValue = .vstr nm then
            (true, pyRemove a0 left, collected ++ [.command nm (.vbool true)])
          else (false, left, collected)
  | .option o, left, collected =>
      let left' := left.filter (fun l => !optMatches o l)
      (decide (left ≠ left'), left', collected)
  | .anyOptions, left, collected =>
      let left' := left.filter (fun l => !l.isOption)
      (decide (left ≠ left'), left', collected)
  | .required cs, left, collected =>
      match requiredFold cs left collected with
      | some (l, c) => (true, l, c)
      | none => (false, left, collected)
  | .optionalP cs, left, collected =>
      let r := optionalFold cs left collected
      (true, r.1, r.2)
  | .oneOrMore cs, left, collected =>
      match cs with
      | [child] =>
          let r := oomLoop (pmatch child) (2 * left.length + 3) left collected none 0
          if 1 ≤ r.1 then (true, r.2.1, r.2.2) else (false, left, collected)
      | _ => (false, left, collected)
  | .either cs, left, collected =>
      match eitherOutcomes cs left collected with
      | [] => (false, left, collected)
      | o :: os => pyMinBy (fun r => r.2.1.length) o os
termination_by structural p _ _ => p

/-- The child fold of Required.match (src lines 188-191): thread `(l, c)` through
the children, aborting on the first failure. -/
def requiredFold : List Pattern → List Pattern → List Pattern →
    Option (List Pattern × List Pattern)
  | [], l, c => some (l, c)
  | p :: ps, l, c =>
      let r := pmatch p l c
      if r.1 then requiredFold ps r.2.1 r.2.2 else none
termination_by structural ps _ _ => ps

/-- The child fold of Optional.match (src lines 200-201): thread `(l, c)` through
the children ignoring each child's own verdict. -/
def optionalFold : List Pattern → List Pattern → List Pattern →
    List Pattern × List Pattern
  | [], l, c => (l, c)
  | p :: ps, l, c =>
      let r := pmatch p l c
      optionalFold ps r.2.1 r.2.2
termination_by structural ps _ _ => ps

/-- The outcome collection of Either.match (src lines 231-235): match every child
against the same `(left, collected)` and keep the succeeding outcomes in child
order. As values this gives every child an isolated copy of `collected`; in the
source the shallow `copy(collected)` shares the accumulating-Argument objects, so
one branch's in-place append (line 120) is visible to later branches - that
refinement is modelled by `eitherOutcomesS` below. -/
def eitherOutcomes : List Pattern → List Pattern → List Pattern →
    List (Bool × List Pattern × List Pattern)
  | [], _, _ => []
  | p :: ps, l, c =>
      let r := pmatch p l c
      (if r.1 then [r] else []) ++ eitherOutcomes ps l c
termination_by structural ps _ _ => ps

end

/-- Python `s.lstrip('-')`: strip every leading dash. -/
def stripDashes (s : String) : String :=
  String.mk (s.data.dropWhile (fun c => c == '-'))

/-- Python `s.startswith(pre)`. -/
def pyStartsWith (s pre : String) : Bool :=
  pre.data.isPrefixOf s.data

/-- The two error classes (src/docopt.py lines 6-18): `DocoptError` is the
developer-side error, `DocoptExit` the user-facing usage exit, each carrying its
message. -/
inductive ParseErr where
  | docoptError : String → ParseErr
  | docoptExit : String → ParseErr
deriving DecidableEq

deriving instance DecidableEq for Except

/-- Python slicing `s[n:]`. -/
def strDropN (s : String) (n : Nat) : String :=
  String.mk (s.data.drop n)

/-- Helper for `splitOnEq`: locate the first `=` in a character list and return
the parts before and after it. -/
def splitCharsOnEq : List Char → Option (List Char × List Char)
  | [] => none
  | c :: cs =>
      if c == '=' then some ([], cs)
      else
        match splitCharsOnEq cs with
        | some (a, b) => some (c :: a, b)
        | none => none

/-- Lines 274-278: split the raw long token on the first `=` into the name part
`raw[:i]` and the optional inline value `raw[i+1:]` (`raw.index('=')`; ValueError
means no `=`). -/
def splitOnEq (raw : String) : String × Option String :=
  match splitCharsOnEq raw.data with
  | some (a, b) => (String.mk a, some (String.mk b))
  | none => (raw, none)

/-- Line 279: `[o for o in options if o.long and o.long.lstrip('-').startswith(raw)]`.
Python truthiness of `o.long` excludes a missing or empty long form. -/
def longCandidates (options : List Opt) (raw : String) : List Opt :=
  options.filter (fun o =>
    match o.long with
    | some s => (s != "") && pyStartsWith (stripDashes s) raw
    | none => false)

/-- Python `'%s' % x` where `x` is a string or None. -/
def pyStr : Option String → String
  | some s => s
  | none => "None"

/-- `', '.join('--%s' % o.long for o in opt)` (lines 288, 290). -/
def longJoined (os : List Opt) : String :=
  String.intercalate ", " (os.map (fun o => "--" ++ pyStr o.long))

/-- `opt.value = value or True` (line 305): Python truthiness turns both None and
the empty string into True. -/
def pyOrTrue : Option String → Value
  | some s => if s = "" then .vbool true else .vstr s
  | none => .vbool true

/-- parse_long (src lines 273-306). `rawFull` is the token text after the leading
`--`, `tokens` the remaining stream. Returns the cloned descriptor with its value
set together with the remaining stream, or the raised error. -/
def parse_long (rawFull : String) (options : List Opt) (tokens : List String)
    (is_pattern : Bool) : Except ParseErr (Opt × List String) :=
  let raw := (splitOnEq rawFull).1
  let value := (splitOnEq rawFull).2
  match longCandidates options raw with
  | [] =>
      if is_pattern then
        .error (.docoptError
          ("--" ++ raw ++ " in \"usage\" should be mentioned in option-description"))
      else .error (.docoptExit ("--" ++ raw ++ " is not recognized"))
  | [o] =>
      if o.argcount == 1 then
        match value with
        | none =>
            match tokens with
            | [] =>
                if is_pattern then
                  .error (.docoptError
                    ("--" ++ pyStr o.name ++ " in \"usage\" requires argument"))
                else .error (.docoptExit ("--" ++ pyStr o.name ++ " requires argument"))
            | t :: ts => .ok ({ o with value := pyOrTrue (some t) }, ts)
        | some v => .ok ({ o with value := pyOrTrue (some v) }, tokens)
      else
        match value with
        | some _ =>
            if is_pattern then
              .error (.docoptError
                ("--" ++ pyStr o.name ++ " in \"usage\" must not have an argument"))
            else .error (.docoptExit
                ("--" ++ pyStr o.name ++ " must not have an argument"))
        | none => .ok ({ o with value := pyOrTrue none }, tokens)
  | os =>
      if is_pattern then
        .error (.docoptError ("--" ++ raw ++ " in \"usage\" is not a unique prefix: "
          ++ longJoined os ++ "?"))
      else .error (.docoptExit ("--" ++ raw ++ " is not a unique prefix: "
          ++ longJoined os ++ "?"))

/-- Lines 312-313: `[o for o in options if o.short and
o.short.lstrip('-').startswith(raw[0])]` — a single-character startswith, i.e. the
stripped short form is nonempty and begins with that character. -/
def shortCandidates (options : List Opt) (ch : Char) : List Opt :=
  options.filter (fun o =>
    match o.short with
    | some s => (s != "") && (match (stripDashes s).data with
        | [] => false
        | d :: _ => d == ch)
    | none => false)

/-- `opt.short[0]` (lines 332-333): the first character of the short form, which
the source indexes on a truthy, hence nonempty, string. -/
def shortHead (o : Opt) : String :=
  match o.short with
  | some s =>
      match s.data with
      | c :: _ => String.mk [c]
      | [] => ""
  | none => ""

/-- parse_shorts (src lines 309-338): process the stacked token one character at a
time. `raw` is the character stack after the leading `-`. The ambiguity check
(line 314) raises DocoptError regardless of `is_pattern`. -/
def parse_shorts_go (options : List Opt) (is_pattern : Bool) :
    List Char → List String → List Opt → Except ParseErr (List Opt × List String)
  | [], tokens, parsed => .ok (parsed, tokens)
  | ch :: rest, tokens, parsed =>
      match shortCandidates options ch with
      | [] =>
          if is_pattern then
            .error (.docoptError ("-" ++ String.mk [ch]
              ++ " in \"usage\" should be mentioned in option-description"))
          else .error (.docoptExit ("-" ++ String.mk [ch] ++ " is not recognized"))
      | [o] =>
          if o.argcount == 0 then
            parse_shorts_go options is_pattern rest tokens
              (parsed ++ [{ o with value := .vbool true }])
          else
            match rest with
            | [] =>
                match tokens with
                | [] =>
                    if is_pattern then
                      .error (.docoptError ("-" ++ shortHead o
                        ++ " in \"usage\" requires argument"))
                    else .error (.docoptExit ("-" ++ shortHead o ++ " requires argument"))
                | t :: ts => .ok (parsed ++ [{ o with value := .vstr t }], ts)
            | _ => .ok (parsed ++ [{ o with value := .vstr (String.mk rest) }], tokens)
      | os => .error (.docoptError ("-" ++ String.mk [ch]
          ++ " is specified ambiguously " ++ toString os.length ++ " times"))

/-- parse_shorts entry point: `raw` is the token text after the leading `-`. -/
def parse_shorts (raw : String) (options : List Opt) (tokens : List String)
    (is_pattern : Bool) : Except ParseErr (List Opt × List String) :=
  parse_shorts_go options is_pattern raw.data tokens []

/-- parse_args (src lines 410-425), with an explicit budget on loop iterations;
every iteration consumes at least the moved token, so `length + 1` iterations
always reach the empty-stream exit. -/
def parse_args_go (options : List Opt) :
    Nat → List String → List Pattern → Except ParseErr (List Pattern)
  | 0, _, parsed => .ok parsed
  | _ + 1, [], parsed => .ok parsed
  | fuel + 1, tok :: rest, parsed =>
      if tok = "--" then
        .ok (parsed ++ rest.map (fun v => .argument none (.vstr v)))
      else if pyStartsWith tok "--" then
        match parse_long (strDropN tok 2) options rest false with
        | .error e => .error e
        | .ok (o, rest') => parse_args_go options fuel rest' (parsed ++ [.option o])
      else if pyStartsWith tok "-" && tok != "-" then
        match parse_shorts (strDropN tok 1) options rest false with
        | .error e => .error e
        | .ok (os, rest') =>
            parse_args_go options fuel rest' (parsed ++ os.map Pattern.option)
      else parse_args_go options fuel rest (parsed ++ [.argument none (.vstr tok)])

def parse_args (source : List String) (options : List Opt) :
    Except ParseErr (List Pattern) :=
  parse_args_go options (source.length + 1) source []

/-- The `children` attribute of the composite nodes; the three leaf classes never
set it (the source tests `hasattr(self, 'children')`), and `AnyOptions` is built
with an empty children list. -/
def Pattern.children : Pattern → List Pattern
  | .required cs => cs
  | .optionalP cs => cs
  | .oneOrMore cs => cs
  | .either cs => cs
  | _ => []

/-- Python `type(c) is Either`. -/
def Pattern.isEither : Pattern → Bool
  | .either _ => true
  | _ => false

/-- Python `type(c) is Required`. -/
def Pattern.isRequired : Pattern → Bool
  | .required _ => true
  | _ => false

/-- Python `type(c) is Optional`. -/
def Pattern.isOptional : Pattern → Bool
  | .optionalP _ => true
  | _ => false

/-- Python `type(c) is OneOrMore`. -/
def Pattern.isOneOrMore : Pattern → Bool
  | .oneOrMore _ => true
  | _ => false

/-- `children.pop(children.index(x))` for the first element satisfying `p`
(src lines 82-83 etc.): that element, and the list with it removed in place. -/
def extractFirst (p : Pattern → Bool) : List Pattern → Option (Pattern × List Pattern)
  | [] => none
  | x :: xs =>
      if p x then some (x, xs)
      else
        match extractFirst p xs with
        | some (y, ys) => some (y, x :: ys)
        | none => none

/-- The worklist loop of the `either` property (src lines 76-99). Pop the front
group; if it contains an Either / Required / Optional / OneOrMore composite
(tested in that order), remove the first composite of that type and push the
rewritten groups at the back (an Either forks the group once per alternative; a
OneOrMore inlines its children twice); a group without composites is a finished
branch. The budget only guards the recursion: each pop replaces one group of
weight `m` by at most `m` groups of weight at most `m - 1` (weights as in
`Pattern.wt`), so fewer than `2 ^ 2 ^ m` pops happen in total and the budget used
in `Pattern.eitherNF` always reaches the loop's own exit. -/
def eitherLoop : Nat → List (List Pattern) → List (List Pattern) → List (List Pattern)
  | 0, _, ret => ret
  | _ + 1, [], ret => ret
  | fuel + 1, children :: groups, ret =>
      match extractFirst Pattern.isEither children with
      | some (e, rest) =>
          eitherLoop fuel (groups ++ e.children.map (fun c => c :: rest)) ret
      | none =>
      match extractFirst Pattern.isRequired children with
      | some (r, rest) => eitherLoop fuel (groups ++ [r.children ++ rest]) ret
      | none =>
      match extractFirst Pattern.isOptional children with
      | some (o, rest) => eitherLoop fuel (groups ++ [o.children ++ rest]) ret
      | none =>
      match extractFirst Pattern.isOneOrMore children with
      | some (m, rest) =>
          eitherLoop fuel (groups ++ [m.children ++ m.children ++ rest]) ret
      | none => eitherLoop fuel groups (ret ++ [children])

mutual

/-- Weight of a pattern, used only to budget `eitherLoop`: a OneOrMore counts its
children twice because the worklist inlines them twice. -/
def Pattern.wt : Pattern → Nat
  | .argument _ _ => 1
  | .command _ _ => 1
  | .option _ => 1
  | .anyOptions => 1
  | .required cs => 1 + Pattern.wtList cs
  | .optionalP cs => 1 + Pattern.wtList cs
  | .oneOrMore cs => 1 + 2 * Pattern.wtList cs
  | .either cs => 1 + Pattern.wtList cs

def Pattern.wtList : List Pattern → Nat
  | [] => 0
  | p :: ps => Pattern.wt p + Pattern.wtList ps

end

/-- The branches of the either-normal form: `[list(c.children) for c in
self.either.children]` as consumed by fix_list_arguments (src line 61). The
`either` property (lines 68-100) returns `Either(Required(self))` for a childless
leaf — the single branch `[p]` — and otherwise runs the worklist on `[[p]]`. -/
def Pattern.eitherNF (p : Pattern) : List (List Pattern) :=
  match p with
  | .argument _ _ => [[p]]
  | .command _ _ => [[p]]
  | .option _ => [[p]]
  | _ => eitherLoop (2 ^ 2 ^ p.wt) [[p]] []

/-- The duplicated Argument leaves of one either-normal-form branch:
`case = [c for c in case if case.count(c) > 1]` then
`[e for e in case if type(e) == Argument]` (src lines 62-64). -/
def branchDups (br : List Pattern) : List Pattern :=
  (br.filter (fun c => 1 < br.count c)).filter Pattern.isArgument

/-- Every duplicated Argument leaf across all branches of the either-normal form
of `p`: these are the leaves fix_list_arguments mutates. -/
def Pattern.accumulating (p : Pattern) : List Pattern :=
  (p.eitherNF.map branchDups).flatten

/-- The `a.value = []` mutation (src line 65) seen through fix_identities: equal
leaves are one shared object, so setting the value reaches every structurally
equal Argument occurrence. -/
def substDup (dups : List Pattern) (x : Pattern) : Pattern :=
  match x with
  | .argument n v => if Pattern.argument n v ∈ dups then .argument n (.vlist []) else x
  | _ => x

mutual

def applyDups (dups : List Pattern) : Pattern → Pattern
  | .argument n v => substDup dups (.argument n v)
  | .command n v => .command n v
  | .option o => .option o
  | .anyOptions => .anyOptions
  | .required cs => .required (applyDupsList dups cs)
  | .optionalP cs => .optionalP (applyDupsList dups cs)
  | .oneOrMore cs => .oneOrMore (applyDupsList dups cs)
  | .either cs => .either (applyDupsList dups cs)

def applyDupsList (dups : List Pattern) : List Pattern → List Pattern
  | [] => []
  | p :: ps => applyDups dups p :: applyDupsList dups ps

end

/-- Pattern.fix (src lines 42-45): fix_identities followed by fix_list_arguments.
fix_identities only replaces leaves by their structurally equal canonical objects,
which is the identity on values; its aliasing effect is what makes the
fix_list_arguments mutation reach all equal occurrences, modelled by
`applyDups`. -/
def Pattern.fix (p : Pattern) : Pattern :=
  applyDups p.accumulating p

mutual

/-- Pattern.flat (src lines 36-40): the leaves of the tree. The three leaf
classes have no `children` attribute and yield `[self]`; composites (including
AnyOptions, whose children list is empty) concatenate their children's leaves. -/
def Pattern.flat : Pattern → List Pattern
  | .argument n v => [.argument n v]
  | .command n v => [.command n v]
  | .option o => [.option o]
  | .anyOptions => []
  | .required cs => Pattern.flatList cs
  | .optionalP cs => Pattern.flatList cs
  | .oneOrMore cs => Pattern.flatList cs
  | .either cs => Pattern.flatList cs

def Pattern.flatList : List Pattern → List Pattern
  | [] => []
  | p :: ps => Pattern.flat p ++ Pattern.flatList ps

end

/-- `a.name` of a leaf as used in the result-dictionary construction (src lines
467-468): Arguments and Commands use their own name, Options `long or short`. -/
def Pattern.leafName : Pattern → Option String
  | .argument n _ => n
  | .command n _ => some n
  | .option o => o.name
  | _ => none

/-- `a.value` of a leaf in the result-dictionary construction. -/
def Pattern.leafValue : Pattern → Value
  | .argument _ v => v
  | .command _ v => v
  | .option o => o.value
  | _ => .vnone

/-- No element of the list is an Option leaf (used to state that the matcher's
`collected` accumulator never receives Option leaves). -/
def optFree (c : List Pattern) : Bool :=
  c.all (fun x => !x.isOption)

/-- Python `dict(pairs)` lookup: the last pair with the wanted key wins. -/
def dictGet (pairs : List (Option String × Value)) (k : Option String) : Option Value :=
  pairs.foldl (fun acc kv => if kv.1 = k then some kv.2 else acc) none

/-- The tail of docopt (src lines 459-469) after the help/version extras: lex
argv against the descriptor table, fix and match the usage tree, and on a full
match build the result pairs `pot_options + options + pot_arguments + arguments`
(line 468; `pot_arguments` reads the shared leaves after the in-place fix, hence
`fixed.flat` here). A lexing error, a failed match or a nonempty residue raises
instead (line 469), modelled as `none`. -/
def docoptResult (formal : Pattern) (pot_options : List Opt) (argv : List String) :
    Option (List (Option String × Value)) :=
  match parse_args argv pot_options with
  | .error _ => none
  | .ok argvLeaves =>
      let fixed := formal.fix
      let r := pmatch fixed argvLeaves []
      if r.1 && decide (r.2.1 = []) then
        let options := argvLeaves.filter Pattern.isOption
        let pot_args := fixed.flat.filter (fun a => a.isArgument || a.isCommand)
        some (pot_options.map (fun o => (o.name, o.value))
          ++ (options ++ pot_args ++ r.2.2).map (fun a => (a.leafName, a.leafValue)))
      else none


/-- The single-quote character, written by code point to keep the file free of
quote literals. -/
def pyQuote : String :=
  String.mk [Char.ofNat 39]

/-- Python `repr` of a string, modelled for strings free of quotes, backslashes
and control characters (every string this development evaluates a repr on is
such): the text wrapped in single quotes. -/
def strRepr (s : String) : String :=
  pyQuote ++ s ++ pyQuote

/-- Python `repr` of an optional string attribute: `None` or the quoted text. -/
def reprOptStr : Option String → String
  | some s => strRepr s
  | none => "None"

mutual

/-- Python `repr` of a value as it appears inside `Option.__repr__`. -/
def reprValue : Value → String
  | .vnone => "None"
  | .vbool true => "True"
  | .vbool false => "False"
  | .vstr s => strRepr s
  | .vlist vs => "[" ++ reprValueList vs ++ "]"

def reprValueList : List Value → String
  | [] => ""
  | [v] => reprValue v
  | v :: rest => reprValue v ++ ", " ++ reprValueList rest

end

/-- Option.__repr__ (src/docopt.py lines 169-171):
`Option(%r, %r, %r, %r) % (short, long, argcount, value)`. Pattern.__eq__
(lines 26-27) compares these repr strings; since the repr prints every field,
that comparison coincides with the structural equality used in this model. -/
def reprOpt (o : Opt) : String :=
  "Option(" ++ reprOptStr o.short ++ ", " ++ reprOptStr o.long ++ ", "
    ++ toString o.argcount ++ ", " ++ reprValue o.value ++ ")"


-- ===== The matcher with Python object sharing =====
--
-- The matcher mutates exactly one thing in place: line 120,
-- `same_name[0].value += [args[0].value]`, on an Argument object stored inside
-- `collected`. Because Required/Optional/OneOrMore/Either only shallow-copy the
-- lists (lines 186-187, 199, 210-211, 233), that object is shared between the
-- copies, the caller's list and every Either branch, so the append is observable
-- after a rollback and across branches. The definitions below model this with an
-- explicit object store: `collected` becomes a list of references into a heap of
-- collected-leaf objects, allocation appends to the heap, the line-120 append
-- writes through the heap, and the heap is threaded through (never rolled back
-- by) every match call. Leaves inside `left` are never mutated by the source, so
-- `left` stays a plain value list.

/-- Write through reference `r` of the heap with `f` (the in-place attribute
assignment of line 120); out-of-range references, which no run produces, leave
the heap unchanged. -/
def heapModify (r : Nat) (f : Pattern → Pattern) : List Pattern → List Pattern
  | [] => []
  | x :: xs =>
      match r with
      | 0 => f x :: xs
      | rr + 1 => x :: heapModify rr f xs

/-- The collected list a caller observes: each reference replaced by the current
state of the object it points to. -/
def derefAll (heap : List Pattern) (refs : List Nat) : List Pattern :=
  refs.map (fun r => heap.getD r .anyOptions)

/-- `type(a) is Argument and a.name == self.name` read through a reference
(src lines 117-118, with `collected` holding object references). -/
def sameNameRef (heap : List Pattern) (nm : Option String) (r : Nat) : Bool :=
  sameNameArg nm (heap.getD r .anyOptions)

/-- `same_name[0].value += [args[0].value]` (src line 120) as a heap update on
the referenced Argument object. -/
def mutAppendArg (v : Value) : Pattern → Pattern
  | .argument n w => .argument n (w.pyAppend v)
  | x => x

/-- The while-loop of OneOrMore.match with the heap threaded through the child's
match function; identical control to `oomLoop` (the `l_ == l` comparison is on
`left`, whose leaves the source never mutates). Returns `(times, l, refs, heap)`. -/
def oomLoopS
    (f : List Pattern → List Nat → List Pattern →
      Bool × List Pattern × List Nat × List Pattern) :
    Nat → List Pattern → List Nat → List Pattern → Option (List Pattern) → Nat →
    Nat × List Pattern × List Nat × List Pattern
  | 0, l, refs, heap, _, times => (times, l, refs, heap)
  | fuel + 1, l, refs, heap, lPrev, times =>
      let r := f l refs heap
      let times' := times + (if r.1 then 1 else 0)
      if some r.2.1 = lPrev then (times', r.2.1, r.2.2.1, r.2.2.2)
      else if r.1 then oomLoopS f fuel r.2.1 r.2.2.1 r.2.2.2 (some r.2.1) times'
      else (times', r.2.1, r.2.2.1, r.2.2.2)

mutual

/-- `match(left, collected)` with the object sharing made explicit:
`refs` is the collected list (as references into `heap`), and the result is
`(matched, left, refs, heap)`. Translated from the same methods as `pmatch`;
the differences are exactly the ones Python's object identity forces: the
accumulating append of Argument.match (line 120) mutates the heap entry found by
the first same-name reference; fresh collected leaves (lines 116, 123, 142) are
allocated at the end of the heap; and every failure path returns the call-time
`left` and `refs` lists but the CURRENT heap, because the source rolls back only
the list bindings, never the shared objects. -/
def pmatchS : Pattern → List Pattern → List Nat → List Pattern →
    Bool × List Pattern × List Nat × List Pattern
  | .argument nm v, left, refs, heap =>
      match left.find? Pattern.isArgument with
      | none => (false, left, refs, heap)
      | some a0 =>
          let left' := pyRemove a0 left
          match v with
          | .vlist _ =>
              match refs.find? (sameNameRef heap nm) with
              | some r => (true, left', refs, heapModify r (mutAppendArg a0.argValue) heap)
              | none => (true, left', refs ++ [heap.length],
                  heap ++ [.argument nm (.vlist [a0.argValue])])
          | _ => (true, left', refs ++ [heap.length], heap ++ [.argument nm a0.argValue])
  | .command nm _, left, refs, heap =>
      match left.find? Pattern.isArgument with
      | none => (false, left, refs, heap)
      | some a0 =>
          if a0.argValue = .vstr nm then
            (true, pyRemove a0 left, refs ++ [heap.length],
              heap ++ [.command nm (.vbool true)])
          else (false, left, refs, heap)
  | .option o, left, refs, heap =>
      let left' := left.filter (fun x => !optMatches o x)
      (decide (left ≠ left'), left', refs, heap)
  | .anyOptions, left, refs, heap =>
      let left' := left.filter (fun x => !x.isOption)
      (decide (left ≠ left'), left', refs, heap)
  | .required cs, left, refs, heap =>
      match requiredFoldS cs left refs heap with
      | (some (l, c), h) => (true, l, c, h)
      | (none, h) => (false, left, refs, h)
  | .optionalP cs, left, refs, heap =>
      let r := optionalFoldS cs left refs heap
      (true, r.1, r.2.1, r.2.2)
  | .oneOrMore cs, left, refs, heap =>
      match cs with
      | [child] =>
          let r := oomLoopS (pmatchS child) (2 * left.length + 3) left refs heap none 0
          if 1 ≤ r.1 then (true, r.2.1, r.2.2.1, r.2.2.2)
          else (false, left, refs, r.2.2.2)
      | _ => (false, left, refs, heap)
  | .either cs, left, refs, heap =>
      match eitherOutcomesS cs left refs heap with
      | ([], h) => (false, left, refs, h)
      | (o :: os, h) =>
          let m := pyMinBy (fun r : Bool × List Pattern × List Nat => r.2.1.length) o os
          (m.1, m.2.1, m.2.2, h)
termination_by structural p _ _ _ => p

/-- Required.match's fold with the heap threaded; a failing child aborts the fold
but its heap (including any line-120 appends) is kept. -/
def requiredFoldS : List Pattern → List Pattern → List Nat → List Pattern →
    Option (List Pattern × List Nat) × List Pattern
  | [], l, refs, heap => (some (l, refs), heap)
  | p :: ps, l, refs, heap =>
      let r := pmatchS p l refs heap
      if r.1 then requiredFoldS ps r.2.1 r.2.2.1 r.2.2.2
      else (none, r.2.2.2)
termination_by structural ps _ _ _ => ps

/-- Optional.match's fold with the heap threaded. -/
def optionalFoldS : List Pattern → List Pattern → List Nat → List Pattern →
    List Pattern × List Nat × List Pattern
  | [], l, refs, heap => (l, refs, heap)
  | p :: ps, l, refs, heap =>
      let r := pmatchS p l refs heap
      optionalFoldS ps r.2.1 r.2.2.1 r.2.2.2
termination_by structural ps _ _ _ => ps

/-- Either.match's outcome collection with object sharing (src lines 231-235):
every child receives copies of the `left` and `refs` LISTS, but the heap is
threaded from one child to the next, so a branch's in-place append is visible to
later branches and the final heap survives even when the selected (or no) branch
succeeds. Returns the succeeding `(matched, left, refs)` outcomes in child order
together with the final heap. -/
def eitherOutcomesS : List Pattern → List Pattern → List Nat → List Pattern →
    List (Bool × List Pattern × List Nat) × List Pattern
  | [], _, _, heap => ([], heap)
  | p :: ps, l, refs, heap =>
      let r := pmatchS p l refs heap
      let rest := eitherOutcomesS ps l refs r.2.2.2
      ((if r.1 then [(r.1, r.2.1, r.2.2.1)] else []) ++ rest.1, rest.2)
termination_by structural ps _ _ _ => ps

end

/-- The flag `-a` descriptor used by the Either examples. -/
def optA : Opt := ⟨some "-a", none, 0, .vbool false⟩

/-- The flag `-b` descriptor used by the Either examples. -/
def optB : Opt := ⟨some "-b", none, 0, .vbool false⟩

/-- The pattern of usage `prog <x> (<x> -a | <x> -b)`. -/
def patXab : Pattern :=
  .required [.argument (some "<x>") .vnone,
    .either [.required [.argument (some "<x>") .vnone, .option optA],
      .required [.argument (some "<x>") .vnone, .option optB]]]

/-- The tree `patXab` after `fix`: every `<x>` occurrence is duplicated inside
an either-normal-form branch, so all of them are initialized to the empty list. -/
def patXabFixed : Pattern :=
  .required [.argument (some "<x>") (.vlist []),
    .either [.required [.argument (some "<x>") (.vlist []), .option optA],
      .required [.argument (some "<x>") (.vlist []), .option optB]]]

/-- The leaves lexed from argv `a b -b`. -/
def argvXab : List Pattern :=
  [.argument none (.vstr "a"), .argument none (.vstr "b"),
   .option ⟨some "-b", none, 0, .vbool true⟩]

-- ===== General lemmas about the matcher =====

theorem pyMinBy_mem {α : Type} (key : α → Nat) (x : α) (xs : List α) :
    pyMinBy key x xs ∈ x :: xs := by
  induction xs generalizing x with
  | nil => simp [pyMinBy]
  | cons y ys ih =>
      simp only [pyMinBy]
      split
      · have h := ih y
        simp only [List.mem_cons] at h ⊢
        tauto
      · have h := ih x
        simp only [List.mem_cons] at h ⊢
        tauto

theorem pyMinBy_le {α : Type} (key : α → Nat) (x : α) (xs : List α) :
    ∀ y ∈ x :: xs, key (pyMinBy key x xs) ≤ key y := by
  induction xs generalizing x with
  | nil =>
      intro y hy
      rw [List.mem_singleton.mp hy]
      simp [pyMinBy]
  | cons z zs ih =>
      intro y hy
      simp only [pyMinBy]
      by_cases hlt : key z < key x
      · rw [if_pos hlt]
        rcases List.mem_cons.mp hy with h1 | hy2
        · rw [h1]
          exact le_trans (ih z z (List.mem_cons_self z zs)) (le_of_lt hlt)
        · exact ih z y hy2
      · rw [if_neg hlt]
        rcases List.mem_cons.mp hy with h1 | hy2
        · rw [h1]
          exact ih x x (List.mem_cons_self x zs)
        · rcases List.mem_cons.mp hy2 with h2 | hy3
          · rw [h2]
            exact le_trans (ih x x (List.mem_cons_self x zs)) (le_of_not_lt hlt)
          · exact ih x y (List.mem_cons.mpr (Or.inr hy3))

theorem pyMinBy_split {α : Type} (key : α → Nat) (x : α) (xs : List α) :
    ∃ pre post, x :: xs = pre ++ pyMinBy key x xs :: post ∧
      ∀ y ∈ pre, key (pyMinBy key x xs) < key y := by
  induction xs generalizing x with
  | nil => exact ⟨[], [], by simp [pyMinBy], by simp⟩
  | cons z zs ih =>
      simp only [pyMinBy]
      by_cases hlt : key z < key x
      · rw [if_pos hlt]
        obtain ⟨pre, post, hsplit, hstrict⟩ := ih z
        refine ⟨x :: pre, post, by simp [hsplit], ?_⟩
        intro y hy
        rcases List.mem_cons.mp hy with h1 | hy2
        · rw [h1]
          exact lt_of_le_of_lt (pyMinBy_le key z zs z (List.mem_cons_self z zs)) hlt
        · exact hstrict y hy2
      · rw [if_neg hlt]
        have hge : key x ≤ key z := le_of_not_lt hlt
        obtain ⟨pre, post, hsplit, hstrict⟩ := ih x
        cases pre with
        | nil =>
            rw [List.nil_append, List.cons.injEq] at hsplit
            refine ⟨[], z :: zs, ?_, by simp⟩
            rw [List.nil_append, ← hsplit.1]
        | cons a rest =>
            rw [List.cons_append, List.cons.injEq] at hsplit
            obtain ⟨hxa, hzs⟩ := hsplit
            subst hxa
            have haxk : key (pyMinBy key x zs) < key x :=
              hstrict x (List.mem_cons_self x rest)
            refine ⟨x :: z :: rest, post, ?_, ?_⟩
            · simp only [List.cons_append]
              rw [← hzs]
            · intro y hy
              rcases List.mem_cons.mp hy with h1 | hy2
              · rw [h1]; exact haxk
              · rcases List.mem_cons.mp hy2 with h2 | hy3
                · rw [h2]; exact lt_of_lt_of_le haxk hge
                · exact hstrict y (List.mem_cons.mpr (Or.inr hy3))

theorem eitherOutcomes_eq (cs l c : List Pattern) :
    eitherOutcomes cs l c = (cs.map (fun p => pmatch p l c)).filter (fun r => r.1) := by
  induction cs with
  | nil => simp [eitherOutcomes]
  | cons p ps ih =>
      simp only [eitherOutcomes, List.map_cons, List.filter_cons, ih]
      split <;> rename_i h <;> simp_all

theorem eitherOutcomes_true {cs l c : List Pattern}
    {r : Bool × List Pattern × List Pattern} (h : r ∈ eitherOutcomes cs l c) :
    r.1 = true := by
  rw [eitherOutcomes_eq cs l c] at h
  exact List.mem_filter.mp h |>.2

theorem filter_neq_any (l : List Pattern) (p : Pattern → Bool) :
    decide (l ≠ l.filter (fun x => !p x)) = l.any p := by
  by_cases h : l = l.filter (fun x => !p x)
  · rw [decide_eq_false (not_not_intro h), eq_comm, List.any_eq_false]
    intro x hx
    have := List.filter_eq_self.mp h.symm x hx
    simp at this
    simp [this]
  · rw [decide_eq_true h, eq_comm, List.any_eq_true]
    by_contra hno
    push_neg at hno
    refine h (List.filter_eq_self.mpr ?_).symm
    intro a ha
    have := hno a ha
    simp only [Bool.not_eq_true] at this
    simp [this]

-- ===== A match only removes leaves from the residue =====

theorem pyRemove_sublist (x : Pattern) (l : List Pattern) :
    (pyRemove x l).Sublist l := by
  induction l with
  | nil => simp [pyRemove]
  | cons y ys ih =>
      simp only [pyRemove]
      split
      · exact List.sublist_cons_self y ys
      · exact ih.cons₂ y

theorem oomLoop_sublist
    (f : List Pattern → List Pattern → Bool × List Pattern × List Pattern)
    (hf : ∀ l c, ((f l c).2.1).Sublist l) :
    ∀ (fuel : Nat) (l c : List Pattern) (lPrev : Option (List Pattern)) (t : Nat),
      ((oomLoop f fuel l c lPrev t).2.1).Sublist l := by
  intro fuel
  induction fuel with
  | zero => intro l c lPrev t; simp [oomLoop]
  | succ n ih =>
      intro l c lPrev t
      simp only [oomLoop]
      split
      · exact hf l c
      · split
        · exact (ih _ _ _ _).trans (hf l c)
        · exact hf l c

mutual

theorem pmatch_sublist : ∀ (p : Pattern) (l c : List Pattern),
    ((pmatch p l c).2.1).Sublist l
  | .argument nm v, l, c => by
      simp only [pmatch]
      split
      · exact List.Sublist.refl l
      · split
        · split
          · exact pyRemove_sublist _ l
          · exact pyRemove_sublist _ l
        · exact pyRemove_sublist _ l
  | .command nm v, l, c => by
      simp only [pmatch]
      split
      · exact List.Sublist.refl l
      · split
        · exact pyRemove_sublist _ l
        · exact List.Sublist.refl l
  | .option o, l, c => by
      simp only [pmatch]
      exact List.filter_sublist l
  | .anyOptions, l, c => by
      simp only [pmatch]
      exact List.filter_sublist l
  | .required cs, l, c => by
      simp only [pmatch]
      split
      · rename_i l2 c2 heq
        exact requiredFold_sublist cs l c l2 c2 heq
      · exact List.Sublist.refl l
  | .optionalP cs, l, c => optionalFold_sublist cs l c
  | .oneOrMore [], l, c => List.Sublist.refl l
  | .oneOrMore [child], l, c => by
      simp only [pmatch]
      split
      · exact oomLoop_sublist (pmatch child) (fun l2 c2 => pmatch_sublist child l2 c2)
          (2 * l.length + 3) l c none 0
      · exact List.Sublist.refl l
  | .oneOrMore (c1 :: c2 :: rest), l, c => List.Sublist.refl l
  | .either cs, l, c => by
      simp only [pmatch]
      split
      · exact List.Sublist.refl l
      · rename_i o os ho
        exact eitherOutcomes_sublist cs l c _ (by
          rw [ho]
          exact pyMinBy_mem (fun r : Bool × List Pattern × List Pattern => r.2.1.length) o os)

theorem requiredFold_sublist : ∀ (cs l c l2 c2 : List Pattern),
    requiredFold cs l c = some (l2, c2) → l2.Sublist l
  | [], l, c, l2, c2 => by
      intro h
      simp only [requiredFold, Option.some.injEq, Prod.mk.injEq] at h
      rw [← h.1]
  | p :: ps, l, c, l2, c2 => by
      intro h
      simp only [requiredFold] at h
      split at h
      · exact (requiredFold_sublist ps _ _ l2 c2 h).trans (pmatch_sublist p l c)
      · exact absurd h (by simp)

theorem optionalFold_sublist : ∀ (cs l c : List Pattern),
    ((optionalFold cs l c).1).Sublist l
  | [], l, c => List.Sublist.refl l
  | p :: ps, l, c => by
      simp only [optionalFold]
      exact (optionalFold_sublist ps _ _).trans (pmatch_sublist p l c)

theorem eitherOutcomes_sublist : ∀ (cs l c : List Pattern)
    (r : Bool × List Pattern × List Pattern),
    r ∈ eitherOutcomes cs l c → (r.2.1).Sublist l
  | [], l, c, r => by
      intro h
      simp [eitherOutcomes] at h
  | p :: ps, l, c, r => by
      intro h
      simp only [eitherOutcomes, List.mem_append] at h
      rcases h with h | h
      · split at h
        · rw [List.mem_singleton.mp h]
          exact pmatch_sublist p l c
        · exact absurd h (by simp)
      · exact eitherOutcomes_sublist ps l c r h

end

-- ===== The collected accumulator never receives Option leaves =====

theorem optFree_append (c1 c2 : List Pattern) :
    optFree (c1 ++ c2) = (optFree c1 && optFree c2) := by
  simp [optFree, List.all_append]

theorem replaceFirst_optFree (q : Pattern → Bool) (f : Pattern → Pattern)
    (c : List Pattern) (hc : optFree c = true)
    (hf : ∀ x, (f x).isOption = false) :
    optFree (replaceFirst q f c) = true := by
  induction c with
  | nil => simp [replaceFirst, optFree]
  | cons x xs ih =>
      simp only [optFree, List.all_cons, Bool.and_eq_true] at hc
      simp only [replaceFirst]
      split
      · simp only [optFree, List.all_cons, Bool.and_eq_true]
        refine ⟨by simp [hf x], ?_⟩
        simpa [optFree] using hc.2
      · simp only [optFree, List.all_cons, Bool.and_eq_true]
        refine ⟨hc.1, ?_⟩
        simpa [optFree] using ih (by simpa [optFree] using hc.2)

theorem oomLoop_optFree
    (f : List Pattern → List Pattern → Bool × List Pattern × List Pattern)
    (hf : ∀ l c, optFree c = true → optFree (f l c).2.2 = true) :
    ∀ (fuel : Nat) (l c : List Pattern) (lPrev : Option (List Pattern)) (t : Nat),
      optFree c = true → optFree (oomLoop f fuel l c lPrev t).2.2 = true := by
  intro fuel
  induction fuel with
  | zero => intro l c lPrev t hc; simpa [oomLoop] using hc
  | succ n ih =>
      intro l c lPrev t hc
      simp only [oomLoop]
      split
      · exact hf l c hc
      · split
        · exact ih _ _ _ _ (hf l c hc)
        · exact hf l c hc

mutual

theorem pmatch_optFree : ∀ (p : Pattern) (l c : List Pattern),
    optFree c = true → optFree (pmatch p l c).2.2 = true
  | .argument nm v, l, c => by
      intro hc
      simp only [pmatch]
      split
      · exact hc
      · split
        · split
          · rw [optFree_append, hc]
            simp [optFree, Pattern.isOption]
          · exact replaceFirst_optFree _ _ c hc (fun x => rfl)
        · rw [optFree_append, hc]
          simp [optFree, Pattern.isOption]
  | .command nm v, l, c => by
      intro hc
      simp only [pmatch]
      split
      · exact hc
      · split
        · rw [optFree_append, hc]
          simp [optFree, Pattern.isOption]
        · exact hc
  | .option o, l, c => fun hc => hc
  | .anyOptions, l, c => fun hc => hc
  | .required cs, l, c => by
      intro hc
      simp only [pmatch]
      split
      · rename_i l2 c2 heq
        exact requiredFold_optFree cs l c l2 c2 heq hc
      · exact hc
  | .optionalP cs, l, c => fun hc => optionalFold_optFree cs l c hc
  | .oneOrMore [], l, c => fun hc => hc
  | .oneOrMore [child], l, c => by
      intro hc
      simp only [pmatch]
      split
      · exact oomLoop_optFree (pmatch child)
          (fun l2 c2 hc2 => pmatch_optFree child l2 c2 hc2)
          (2 * l.length + 3) l c none 0 hc
      · exact hc
  | .oneOrMore (c1 :: c2 :: rest), l, c => fun hc => hc
  | .either cs, l, c => by
      intro hc
      simp only [pmatch]
      split
      · exact hc
      · rename_i o os ho
        exact eitherOutcomes_optFree cs l c _ (by
          rw [ho]
          exact pyMinBy_mem (fun r : Bool × List Pattern × List Pattern => r.2.1.length) o os) hc

theorem requiredFold_optFree : ∀ (cs l c l2 c2 : List Pattern),
    requiredFold cs l c = some (l2, c2) → optFree c = true → optFree c2 = true
  | [], l, c, l2, c2 => by
      intro h hc
      simp only [requiredFold, Option.some.injEq, Prod.mk.injEq] at h
      rw [← h.2]
      exact hc
  | p :: ps, l, c, l2, c2 => by
      intro h hc
      simp only [requiredFold] at h
      split at h
      · exact requiredFold_optFree ps _ _ l2 c2 h (pmatch_optFree p l c hc)
      · exact absurd h (by simp)

theorem optionalFold_optFree : ∀ (cs l c : List Pattern),
    optFree c = true → optFree (optionalFold cs l c).2 = true
  | [], l, c => fun hc => hc
  | p :: ps, l, c => by
      intro hc
      simp only [optionalFold]
      exact optionalFold_optFree ps _ _ (pmatch_optFree p l c hc)

theorem eitherOutcomes_optFree : ∀ (cs l c : List Pattern)
    (r : Bool × List Pattern × List Pattern),
    r ∈ eitherOutcomes cs l c → optFree c = true → optFree r.2.2 = true
  | [], l, c, r => by
      intro h hc
      simp [eitherOutcomes] at h
  | p :: ps, l, c, r => by
      intro h hc
      simp only [eitherOutcomes, List.mem_append] at h
      rcases h with h | h
      · split at h
        · rw [List.mem_singleton.mp h]
          exact pmatch_optFree p l c hc
        · exact absurd h (by simp)
      · exact eitherOutcomes_optFree ps l c r h hc

end

-- ===== The OneOrMore fixed-point loop =====

theorem oomLoop_succ
    (f : List Pattern → List Pattern → Bool × List Pattern × List Pattern)
    (fuel : Nat) (l c : List Pattern) (lPrev : Option (List Pattern)) (times : Nat) :
    oomLoop f (fuel + 1) l c lPrev times =
      if some (f l c).2.1 = lPrev then
        (times + (if (f l c).1 then 1 else 0), (f l c).2.1, (f l c).2.2)
      else if (f l c).1 then
        oomLoop f fuel (f l c).2.1 (f l c).2.2 (some (f l c).2.1)
          (times + (if (f l c).1 then 1 else 0))
      else (times + (if (f l c).1 then 1 else 0), (f l c).2.1, (f l c).2.2) := rfl

theorem oomLoop_times_le
    (f : List Pattern → List Pattern → Bool × List Pattern × List Pattern) :
    ∀ (fuel : Nat) (l c : List Pattern) (lPrev : Option (List Pattern)) (t : Nat),
      t ≤ (oomLoop f fuel l c lPrev t).1 := by
  intro fuel
  induction fuel with
  | zero => intro l c lPrev t; simp [oomLoop]
  | succ n ih =>
      intro l c lPrev t
      rw [oomLoop_succ]
      split
      · simp
      · split
        · exact le_trans (by simp) (ih _ _ _ _)
        · simp

theorem oomLoop_fuel_irrel
    (f : List Pattern → List Pattern → Bool × List Pattern × List Pattern)
    (hf : ∀ l c, ((f l c).2.1).Sublist l) :
    ∀ (n fuel1 fuel2 : Nat) (l c : List Pattern) (lPrev : Option (List Pattern)) (t : Nat),
      2 * l.length + (if lPrev = some l then 0 else 2) < n →
      2 * l.length + (if lPrev = some l then 0 else 2) < fuel1 →
      2 * l.length + (if lPrev = some l then 0 else 2) < fuel2 →
      oomLoop f fuel1 l c lPrev t = oomLoop f fuel2 l c lPrev t := by
  intro n
  induction n with
  | zero => intro fuel1 fuel2 l c lPrev t h1 h2 h3; exact absurd h1 (Nat.not_lt_zero _)
  | succ n ih =>
      intro fuel1 fuel2 l c lPrev t hn h1 h2
      obtain ⟨k1, rfl⟩ : ∃ k, fuel1 = k + 1 := ⟨fuel1 - 1, by omega⟩
      obtain ⟨k2, rfl⟩ : ∃ k, fuel2 = k + 1 := ⟨fuel2 - 1, by omega⟩
      rw [oomLoop_succ, oomLoop_succ]
      split
      · rfl
      · split
        · rename_i hne hm
          have hlen : ((f l c).2.1).length ≤ l.length := (hf l c).length_le
          have hΦ : 2 * ((f l c).2.1).length +
              (if some (f l c).2.1 = some (f l c).2.1 then 0 else 2) =
              2 * ((f l c).2.1).length := by simp
          by_cases hl : lPrev = some l
          · have hne2 : (f l c).2.1 ≠ l := by
              intro heq
              exact hne (by rw [heq, hl])
            have hlt : ((f l c).2.1).length < l.length := by
              rcases Nat.lt_or_ge ((f l c).2.1).length l.length with h | h
              · exact h
              · exact absurd ((hf l c).eq_of_length (le_antisymm hlen h)) hne2
            rw [hl] at hn h1 h2
            simp only [if_pos rfl] at hn h1 h2
            apply ih
            · rw [hΦ]; omega
            · rw [hΦ]; omega
            · rw [hΦ]; omega
          · rw [if_neg hl] at hn h1 h2
            apply ih
            · rw [hΦ]; omega
            · rw [hΦ]; omega
            · rw [hΦ]; omega
        · rfl

theorem oneOrMore_matched (child : Pattern) (l c : List Pattern) :
    (pmatch (.oneOrMore [child]) l c).1 = (pmatch child l c).1 := by
  simp only [pmatch]
  rw [show 2 * l.length + 3 = (2 * l.length + 2) + 1 from rfl, oomLoop_succ]
  cases hm : (pmatch child l c).1 with
  | false => simp
  | true =>
      have hle := oomLoop_times_le (pmatch child) (2 * l.length + 2)
        (pmatch child l c).2.1 (pmatch child l c).2.2 (some (pmatch child l c).2.1) 1
      simp [hle]

-- ===== Node-level characterizations =====

theorem pmatch_option_eq (o : Opt) (l c : List Pattern) :
    pmatch (.option o) l c
      = (l.any (optMatches o), l.filter (fun x => !optMatches o x), c) := by
  simp only [pmatch]
  rw [filter_neq_any]

theorem pmatch_either_eq (cs l c : List Pattern) :
    pmatch (.either cs) l c
      = match eitherOutcomes cs l c with
        | [] => (false, l, c)
        | o :: os => pyMinBy (fun r : Bool × List Pattern × List Pattern => r.2.1.length) o os :=
  rfl

theorem replaceFirst_append (q : Pattern → Bool) (f : Pattern → Pattern)
    (pre : List Pattern) (x : Pattern) (post : List Pattern)
    (hpre : ∀ y ∈ pre, q y = false) (hx : q x = true) :
    replaceFirst q f (pre ++ x :: post) = pre ++ f x :: post := by
  induction pre with
  | nil => simp [replaceFirst, hx]
  | cons a rest ih =>
      simp only [List.cons_append, replaceFirst]
      rw [if_neg (by simp [hpre a (List.mem_cons_self a rest)])]
      rw [List.append_eq, ih (fun y hy => hpre y (List.mem_cons.mpr (Or.inr hy)))]

theorem pmatch_argument_append (nm : Option String) (v0 : List Value)
    (left c pre post : List Pattern) (a0 : Pattern) (vs : List Value)
    (hfind : left.find? Pattern.isArgument = some a0)
    (hc : c = pre ++ .argument nm (.vlist vs) :: post)
    (hpre : ∀ x ∈ pre, sameNameArg nm x = false) :
    pmatch (.argument nm (.vlist v0)) left c
      = (true, pyRemove a0 left,
          pre ++ .argument nm (.vlist (vs ++ [a0.argValue])) :: post) := by
  have hx : sameNameArg nm (.argument nm (.vlist vs)) = true := by
    simp [sameNameArg, Pattern.isArgument, Pattern.argName]
  simp only [pmatch, hfind]
  have hne : (List.filter (sameNameArg nm) c).isEmpty = false := by
    rw [hc, List.filter_append, List.filter_cons_of_pos hx]
    cases hp : List.filter (sameNameArg nm) pre <;> rfl
  rw [hne]
  simp only [Bool.false_eq_true, if_false]
  rw [hc, replaceFirst_append _ _ pre _ post hpre hx]
  simp [Pattern.argName, Pattern.argValue, Value.pyAppend]

mutual

theorem flat_applyDups : ∀ (d : List Pattern) (p : Pattern),
    (applyDups d p).flat = p.flat.map (substDup d)
  | d, .argument n v => by
      simp only [applyDups, substDup, Pattern.flat, List.map_cons, List.map_nil]
      split <;> simp [Pattern.flat]
  | d, .command n v => by simp [applyDups, Pattern.flat, substDup]
  | d, .option o => by simp [applyDups, Pattern.flat, substDup]
  | d, .anyOptions => by simp [applyDups, Pattern.flat]
  | d, .required cs => by
      simp only [applyDups, Pattern.flat]
      exact flatList_applyDups d cs
  | d, .optionalP cs => by
      simp only [applyDups, Pattern.flat]
      exact flatList_applyDups d cs
  | d, .oneOrMore cs => by
      simp only [applyDups, Pattern.flat]
      exact flatList_applyDups d cs
  | d, .either cs => by
      simp only [applyDups, Pattern.flat]
      exact flatList_applyDups d cs

theorem flatList_applyDups : ∀ (d : List Pattern) (cs : List Pattern),
    Pattern.flatList (applyDupsList d cs) = (Pattern.flatList cs).map (substDup d)
  | d, [] => by simp [applyDupsList, Pattern.flatList]
  | d, p :: ps => by
      simp only [applyDupsList, Pattern.flatList, List.map_append]
      rw [flat_applyDups d p, flatList_applyDups d ps]

end

theorem mem_accumulating {p : Pattern} {br : List Pattern} {a : Pattern}
    (hbr : br ∈ p.eitherNF) (ha : a ∈ br) (hdup : 1 < br.count a)
    (harg : a.isArgument = true) : a ∈ p.accumulating := by
  simp only [Pattern.accumulating, List.mem_flatten]
  refine ⟨branchDups br, List.mem_map_of_mem branchDups hbr, ?_⟩
  simp only [branchDups, List.mem_filter]
  exact ⟨⟨ha, by simp [hdup]⟩, harg⟩

theorem fix_flat_sets_empty {p : Pattern} {nm : Option String} {v : Value}
    {br : List Pattern} (hbr : br ∈ p.eitherNF)
    (hmem : (Pattern.argument nm v) ∈ br)
    (hdup : 1 < br.count (Pattern.argument nm v))
    (hflat : (Pattern.argument nm v) ∈ p.flat) :
    (Pattern.argument nm (.vlist [])) ∈ p.fix.flat := by
  have hacc : Pattern.argument nm v ∈ p.accumulating :=
    mem_accumulating hbr hmem hdup rfl
  have : p.fix.flat = p.flat.map (substDup p.accumulating) :=
    flat_applyDups p.accumulating p
  rw [this]
  refine List.mem_map.mpr ⟨Pattern.argument nm v, hflat, ?_⟩
  simp [substDup, hacc]

-- ===== Claims C1, C2, C3 =====

/-- C1: the claim says Option.match removes only the FIRST matching leaf and that
a second matching leaf stays in the residue. The code (src lines 155-163) filters
out EVERY leaf whose (short, long) pair matches: with two equal `-a` leaves the
residue is empty and the second leaf is gone. -/
theorem C1_counterexample :
    pmatch (.option ⟨some "-a", none, 0, .vbool false⟩)
        [.option ⟨some "-a", none, 0, .vbool true⟩,
         .option ⟨some "-a", none, 0, .vbool true⟩] []
      = (true, [], []) ∧
    (Pattern.option ⟨some "-a", none, 0, .vbool true⟩) ∉
      (pmatch (.option ⟨some "-a", none, 0, .vbool false⟩)
        [.option ⟨some "-a", none, 0, .vbool true⟩,
         .option ⟨some "-a", none, 0, .vbool true⟩] []).2.1 := by
  decide

/-- C1 (amended): Option.match removes from `left` EVERY leaf whose
(short, long) pair equals the node's, leaves `collected` unchanged, and succeeds
iff at least one such leaf was present. -/
theorem C1_option_match_removes_all (o : Opt) (left c : List Pattern) :
    pmatch (.option o) left c
      = (left.any (optMatches o), left.filter (fun x => !optMatches o x), c) ∧
    ((pmatch (.option o) left c).1 = true ↔ ∃ x ∈ left, optMatches o x = true) := by
  refine ⟨pmatch_option_eq o left c, ?_⟩
  rw [pmatch_option_eq]
  exact List.any_eq_true

/-- C3: the claim says two Options compare equal whenever their (short, long)
pairs agree, regardless of argcount or value. Pattern.__eq__ (src lines 26-27)
compares reprs, and Option.__repr__ (lines 169-171) prints argcount and value
too: two `-a` Options differing only in value have different reprs and are
unequal. -/
theorem C3_counterexample :
    ((⟨some "-a", none, 0, .vbool false⟩ : Opt).short
        = (⟨some "-a", none, 0, .vbool true⟩ : Opt).short ∧
     (⟨some "-a", none, 0, .vbool false⟩ : Opt).long
        = (⟨some "-a", none, 0, .vbool true⟩ : Opt).long) ∧
    reprOpt ⟨some "-a", none, 0, .vbool false⟩ ≠ reprOpt ⟨some "-a", none, 0, .vbool true⟩ ∧
    Pattern.option ⟨some "-a", none, 0, .vbool false⟩
      ≠ Pattern.option ⟨some "-a", none, 0, .vbool true⟩ := by
  decide

/-- C3 (amended): two Options compare equal iff ALL of short, long, argcount and
value agree (the repr comparison prints every field); and an Option's name is its
long form when that is present and nonempty, otherwise its short form (Python
`long or short`). -/
theorem C3_option_eq_and_name :
    (∀ o1 o2 : Opt, Pattern.option o1 = Pattern.option o2 ↔
      o1.short = o2.short ∧ o1.long = o2.long ∧ o1.argcount = o2.argcount ∧
        o1.value = o2.value) ∧
    (∀ o1 o2 : Opt, o1 = o2 → reprOpt o1 = reprOpt o2) ∧
    (∀ (o : Opt) (s : String), o.long = some s → s ≠ "" → o.name = some s) ∧
    (∀ o : Opt, o.long = none → o.name = o.short) ∧
    (∀ o : Opt, o.long = some "" → o.name = o.short) := by
  refine ⟨?_, ?_, ?_, ?_, ?_⟩
  · intro o1 o2
    cases o1
    cases o2
    simp [Opt.mk.injEq]
  · intro o1 o2 h
    rw [h]
  · intro o s h hne
    simp [Opt.name, h, hne]
  · intro o h
    simp [Opt.name, h]
  · intro o h
    simp [Opt.name, h]

/-- Witness for C3: the equality clause at equal concrete Options and the three
name clauses at concrete descriptors. -/
theorem C3_witness :
    Pattern.option ⟨some "-x", none, 1, .vnone⟩ = Pattern.option ⟨some "-x", none, 1, .vnone⟩ ∧
    reprOpt ⟨some "-x", none, 1, .vnone⟩ = reprOpt ⟨some "-x", none, 1, .vnone⟩ ∧
    (⟨some "-v", some "--verbose", 0, .vbool false⟩ : Opt).name = some "--verbose" ∧
    (⟨some "-v", none, 0, .vbool false⟩ : Opt).name = some "-v" ∧
    (⟨some "-v", some "", 0, .vbool false⟩ : Opt).name = some "-v" :=
  ⟨(C3_option_eq_and_name.1 _ _).mpr (by decide),
   C3_option_eq_and_name.2.1 _ _ rfl,
   C3_option_eq_and_name.2.2.1 _ "--verbose" rfl (by decide),
   C3_option_eq_and_name.2.2.2.1 _ rfl,
   C3_option_eq_and_name.2.2.2.2 _ rfl⟩

-- ===== Claims C4, C5, C6 =====

/-- C4: the claim says the emitted value equals the inline text (or the consumed
token) even when that text is the empty string. The code runs
`opt.value = value or True` (src line 305), and Python truthiness turns the empty
string into True: `--speed=` with an argcount-1 descriptor emits True, not `""`. -/
theorem C4_counterexample :
    parse_long "speed=" [⟨none, some "--speed", 1, .vbool false⟩] [] false
      = .ok (⟨none, some "--speed", 1, .vbool true⟩, []) ∧
    (⟨none, some "--speed", 1, .vbool true⟩ : Opt).value ≠ Value.vstr "" := by
  decide

/-- C4 (amended): when long-option lexing resolves to exactly one descriptor with
argcount 1, the value is the inline text when present and nonempty, else the next
stream token when nonempty; an empty inline or consumed text yields True instead
(`value or True`); an empty stream fails with "requires argument". With
argcount 0 an inline value fails with "must not have an argument" and otherwise
the value is True. -/
theorem C4_parse_long_values (rawFull nm : String) (iv : Option String)
    (options : List Opt) (o : Opt) (tokens : List String)
    (hsplit : splitOnEq rawFull = (nm, iv))
    (hcand : longCandidates options nm = [o]) :
    (o.argcount = 1 →
      (∀ v, iv = some v → v ≠ "" →
        parse_long rawFull options tokens false = .ok ({ o with value := .vstr v }, tokens)) ∧
      (iv = some "" →
        parse_long rawFull options tokens false
          = .ok ({ o with value := .vbool true }, tokens)) ∧
      (∀ t ts, iv = none → tokens = t :: ts → t ≠ "" →
        parse_long rawFull options tokens false = .ok ({ o with value := .vstr t }, ts)) ∧
      (∀ ts, iv = none → tokens = "" :: ts →
        parse_long rawFull options tokens false = .ok ({ o with value := .vbool true }, ts)) ∧
      (iv = none → tokens = [] →
        parse_long rawFull options tokens false
          = .error (.docoptExit ("--" ++ pyStr o.name ++ " requires argument")))) ∧
    (o.argcount = 0 →
      (∀ v, iv = some v →
        parse_long rawFull options tokens false
          = .error (.docoptExit ("--" ++ pyStr o.name ++ " must not have an argument"))) ∧
      (iv = none →
        parse_long rawFull options tokens false
          = .ok ({ o with value := .vbool true }, tokens))) := by
  have h1 : (splitOnEq rawFull).1 = nm := by rw [hsplit]
  have h2 : (splitOnEq rawFull).2 = iv := by rw [hsplit]
  refine ⟨fun ha => ⟨?_, ?_, ?_, ?_, ?_⟩, fun ha => ⟨?_, ?_⟩⟩
  · intro v hiv hv
    subst hiv
    simp only [parse_long, h1, h2, hcand, ha]
    simp [pyOrTrue, hv]
  · intro hiv
    subst hiv
    simp only [parse_long, h1, h2, hcand, ha]
    simp [pyOrTrue]
  · intro t ts hiv htk hv
    subst hiv
    subst htk
    simp only [parse_long, h1, h2, hcand, ha]
    simp [pyOrTrue, hv]
  · intro ts hiv htk
    subst hiv
    subst htk
    simp only [parse_long, h1, h2, hcand, ha]
    simp [pyOrTrue]
  · intro hiv htk
    subst hiv
    subst htk
    simp only [parse_long, h1, h2, hcand, ha]
    simp [pyOrTrue]
  · intro v hiv
    subst hiv
    simp only [parse_long, h1, h2, hcand, ha]
    simp [pyOrTrue]
  · intro hiv
    subst hiv
    simp only [parse_long, h1, h2, hcand, ha]
    simp [pyOrTrue]

/-- Witness for C4 at the `--speed` and `--all` descriptors. -/
theorem C4_witness :
    parse_long "speed=20" [⟨none, some "--speed", 1, .vbool false⟩] [] false
      = .ok (⟨none, some "--speed", 1, .vstr "20"⟩, []) ∧
    parse_long "speed" [⟨none, some "--speed", 1, .vbool false⟩] ["20"] false
      = .ok (⟨none, some "--speed", 1, .vstr "20"⟩, []) ∧
    parse_long "speed" [⟨none, some "--speed", 1, .vbool false⟩] [] false
      = .error (.docoptExit "----speed requires argument") ∧
    parse_long "all=x" [⟨none, some "--all", 0, .vbool false⟩] [] false
      = .error (.docoptExit "----all must not have an argument") ∧
    parse_long "all" [⟨none, some "--all", 0, .vbool false⟩] [] false
      = .ok (⟨none, some "--all", 0, .vbool true⟩, []) := by
  refine ⟨?_, ?_, ?_, ?_, ?_⟩
  · rw [((C4_parse_long_values "speed=20" "speed" (some "20")
      [⟨none, some "--speed", 1, .vbool false⟩] ⟨none, some "--speed", 1, .vbool false⟩ []
      (by decide) (by decide)).1 rfl).1 "20" rfl (by decide)]
  · rw [((C4_parse_long_values "speed" "speed" none
      [⟨none, some "--speed", 1, .vbool false⟩] ⟨none, some "--speed", 1, .vbool false⟩ ["20"]
      (by decide) (by decide)).1 rfl).2.2.1 "20" [] rfl rfl (by decide)]
  · rw [((C4_parse_long_values "speed" "speed" none
      [⟨none, some "--speed", 1, .vbool false⟩] ⟨none, some "--speed", 1, .vbool false⟩ []
      (by decide) (by decide)).1 rfl).2.2.2.2 rfl rfl]
    decide
  · rw [((C4_parse_long_values "all=x" "all" (some "x")
      [⟨none, some "--all", 0, .vbool false⟩] ⟨none, some "--all", 0, .vbool false⟩ []
      (by decide) (by decide)).2 rfl).1 "x" rfl]
    decide
  · rw [((C4_parse_long_values "all" "all" none
      [⟨none, some "--all", 0, .vbool false⟩] ⟨none, some "--all", 0, .vbool false⟩ []
      (by decide) (by decide)).2 rfl).2 rfl]

/-- C5: the claim's example says `--verb` is ambiguous between `--verbose` and
`--verify`. Prefix matching is real (src line 279), but `"verify"` does not start
with `"verb"`, so `--verb` resolves uniquely to `--verbose`; the ambiguous prefix
is `--ver`. -/
theorem C5_counterexample :
    parse_long "verb" [⟨none, some "--verbose", 0, .vbool false⟩,
        ⟨none, some "--verify", 0, .vbool false⟩] [] false
      = .ok (⟨none, some "--verbose", 0, .vbool true⟩, []) ∧
    longCandidates [⟨none, some "--verbose", 0, .vbool false⟩,
        ⟨none, some "--verify", 0, .vbool false⟩] "verb"
      = [⟨none, some "--verbose", 0, .vbool false⟩] := by
  decide

/-- C5 (amended): long-option lexing filters descriptors by prefix: zero
candidates is a user-facing "not recognized" exit, two or more is a "not a
unique prefix" exit listing the candidates, and exactly one behaves as if that
descriptor were the whole table. Given `--verbose` and `--verify`, `--ver` is
rejected as ambiguous while `--verb` and `--verbo` resolve to `--verbose`. -/
theorem C5_long_resolution (rawFull nm : String) (iv : Option String)
    (options : List Opt) (tokens : List String)
    (hsplit : splitOnEq rawFull = (nm, iv)) :
    (longCandidates options nm = [] →
      parse_long rawFull options tokens false
        = .error (.docoptExit ("--" ++ nm ++ " is not recognized"))) ∧
    (∀ o, longCandidates options nm = [o] →
      parse_long rawFull options tokens false = parse_long rawFull [o] tokens false) ∧
    (∀ o1 o2 os, longCandidates options nm = o1 :: o2 :: os →
      parse_long rawFull options tokens false
        = .error (.docoptExit ("--" ++ nm ++ " is not a unique prefix: "
            ++ longJoined (o1 :: o2 :: os) ++ "?"))) ∧
    parse_long "ver" [⟨none, some "--verbose", 0, .vbool false⟩,
        ⟨none, some "--verify", 0, .vbool false⟩] [] false
      = .error (.docoptExit "--ver is not a unique prefix: ----verbose, ----verify?") ∧
    parse_long "verb" [⟨none, some "--verbose", 0, .vbool false⟩,
        ⟨none, some "--verify", 0, .vbool false⟩] [] false
      = .ok (⟨none, some "--verbose", 0, .vbool true⟩, []) ∧
    parse_long "verbo" [⟨none, some "--verbose", 0, .vbool false⟩,
        ⟨none, some "--verify", 0, .vbool false⟩] [] false
      = .ok (⟨none, some "--verbose", 0, .vbool true⟩, []) := by
  have h1 : (splitOnEq rawFull).1 = nm := by rw [hsplit]
  have h2 : (splitOnEq rawFull).2 = iv := by rw [hsplit]
  refine ⟨?_, ?_, ?_, by decide, by decide, by decide⟩
  · intro hz
    simp only [parse_long, h1, h2, hz]
    simp
  · intro o hone
    have hmem : o ∈ longCandidates options nm := by
      rw [hone]
      exact List.mem_singleton.mpr rfl
    have hpred : (match o.long with
        | some s => (s != "") && pyStartsWith (stripDashes s) nm
        | none => false) = true := by
      simp only [longCandidates] at hmem
      exact (List.mem_filter.mp hmem).2
    have hsingle : longCandidates [o] nm = [o] := by
      simp only [longCandidates]
      refine List.filter_eq_self.mpr ?_
      intro x hx
      rw [List.mem_singleton.mp hx]
      exact hpred
    simp only [parse_long, h1, h2, hone, hsingle]
  · intro o1 o2 os hmulti
    simp only [parse_long, h1, h2, hmulti]
    simp

/-- Witness for C5: the zero-candidate clause at an empty table, the
single-candidate clause at `--verbo`, and the ambiguity clause at `--ver`. -/
theorem C5_witness :
    parse_long "x" [] [] false = .error (.docoptExit "--x is not recognized") ∧
    parse_long "verbo" [⟨none, some "--verbose", 0, .vbool false⟩,
        ⟨none, some "--verify", 0, .vbool false⟩] [] false
      = parse_long "verbo" [⟨none, some "--verbose", 0, .vbool false⟩] [] false ∧
    parse_long "ver" [⟨none, some "--verbose", 0, .vbool false⟩,
        ⟨none, some "--verify", 0, .vbool false⟩] [] false
      = .error (.docoptExit ("--ver is not a unique prefix: "
          ++ longJoined [⟨none, some "--verbose", 0, .vbool false⟩,
              ⟨none, some "--verify", 0, .vbool false⟩] ++ "?")) := by
  refine ⟨?_, ?_, ?_⟩
  · rw [(C5_long_resolution "x" "x" none [] [] (by decide)).1 (by decide)]
    decide
  · exact (C5_long_resolution "verbo" "verbo" none _ [] (by decide)).2.1
      ⟨none, some "--verbose", 0, .vbool false⟩ (by decide)
  · exact (C5_long_resolution "ver" "ver" none _ [] (by decide)).2.2.1
      ⟨none, some "--verbose", 0, .vbool false⟩ ⟨none, some "--verify", 0, .vbool false⟩ []
      (by decide)

/-- C6: the claim says the short-option lookup matches descriptors whose stripped
short form EQUALS the current character. The code uses `startswith` (src line
313): a descriptor with short `-ab` is matched by `-a` even though its stripped
short form `"ab"` does not equal `"a"`, where the claim would predict a
zero-match error. -/
theorem C6_counterexample :
    parse_shorts "a" [⟨some "-ab", none, 0, .vbool false⟩] [] false
      = .ok ([⟨some "-ab", none, 0, .vbool true⟩], []) ∧
    stripDashes "-ab" ≠ "a" := by
  decide

/-- C6 (amended): stacked short lexing processes one character at a time; the
descriptor is the one whose short form, with leading dashes stripped, STARTS
WITH the current character (zero matches is a user exit, several a developer
ambiguity error); a flag yields True and continues on the remaining stack, while
an argcount-1 option consumes the whole remaining stack as its value when
nonempty and otherwise the next stream token, failing when the stream is empty.
Flags -a -b -c on the stacked token -abc all come out True. -/
theorem C6_parse_shorts (options : List Opt) (ch : Char) (rest : List Char)
    (tokens : List String) (parsed : List Opt) :
    (shortCandidates options ch = [] →
      parse_shorts_go options false (ch :: rest) tokens parsed
        = .error (.docoptExit ("-" ++ String.mk [ch] ++ " is not recognized"))) ∧
    (∀ o1 o2 os, shortCandidates options ch = o1 :: o2 :: os →
      parse_shorts_go options false (ch :: rest) tokens parsed
        = .error (.docoptError ("-" ++ String.mk [ch] ++ " is specified ambiguously "
            ++ toString (o1 :: o2 :: os).length ++ " times"))) ∧
    (∀ o, shortCandidates options ch = [o] →
      (o.argcount = 0 →
        parse_shorts_go options false (ch :: rest) tokens parsed
          = parse_shorts_go options false rest tokens
              (parsed ++ [{ o with value := .vbool true }])) ∧
      (o.argcount ≠ 0 → rest ≠ [] →
        parse_shorts_go options false (ch :: rest) tokens parsed
          = .ok (parsed ++ [{ o with value := .vstr (String.mk rest) }], tokens)) ∧
      (∀ t ts, o.argcount ≠ 0 → rest = [] → tokens = t :: ts →
        parse_shorts_go options false (ch :: rest) tokens parsed
          = .ok (parsed ++ [{ o with value := .vstr t }], ts)) ∧
      (o.argcount ≠ 0 → rest = [] → tokens = [] →
        parse_shorts_go options false (ch :: rest) tokens parsed
          = .error (.docoptExit ("-" ++ shortHead o ++ " requires argument")))) ∧
    parse_shorts "abc" [⟨some "-a", none, 0, .vbool false⟩,
        ⟨some "-b", none, 0, .vbool false⟩, ⟨some "-c", none, 0, .vbool false⟩] [] false
      = .ok ([⟨some "-a", none, 0, .vbool true⟩, ⟨some "-b", none, 0, .vbool true⟩,
          ⟨some "-c", none, 0, .vbool true⟩], []) := by
  refine ⟨?_, ?_, ?_, by decide⟩
  · intro hz
    simp only [parse_shorts_go, hz]
    simp
  · intro o1 o2 os hmulti
    simp only [parse_shorts_go, hmulti]
  · intro o hone
    refine ⟨?_, ?_, ?_, ?_⟩
    · intro ha
      simp only [parse_shorts_go, hone, ha]
      simp
    · intro ha hrest
      rcases rest with _ | ⟨r0, rrest⟩
      · exact absurd rfl hrest
      · simp only [parse_shorts_go, hone]
        rw [if_neg (by simp [ha])]
    · intro t ts ha hrest htk
      subst hrest
      subst htk
      simp only [parse_shorts_go, hone]
      rw [if_neg (by simp [ha])]
    · intro ha hrest htk
      subst hrest
      subst htk
      simp only [parse_shorts_go, hone]
      rw [if_neg (by simp [ha])]
      simp

/-- Witness for C6: every clause at concrete descriptors: unknown flag `-z`,
ambiguous `-a` versus two descriptors, flag step, stack-as-value, token-as-value
and missing-argument for the valued short `-f`. -/
theorem C6_witness :
    parse_shorts_go [] false (['z'] : List Char) [] []
      = .error (.docoptExit ("-" ++ String.mk [Char.ofNat 122] ++ " is not recognized")) ∧
    parse_shorts_go [⟨some "-a", none, 0, .vbool false⟩, ⟨some "-ab", none, 0, .vbool false⟩]
        false ['a'] [] []
      = .error (.docoptError ("-" ++ String.mk [Char.ofNat 97]
          ++ " is specified ambiguously " ++ toString 2 ++ " times")) ∧
    parse_shorts_go [⟨some "-a", none, 0, .vbool false⟩] false ['a'] [] []
      = parse_shorts_go [⟨some "-a", none, 0, .vbool false⟩] false [] []
          [⟨some "-a", none, 0, .vbool true⟩] ∧
    parse_shorts_go [⟨some "-f", none, 1, .vbool false⟩] false ['f', 'x'] [] []
      = .ok ([⟨some "-f", none, 1, .vstr (String.mk ['x'])⟩], []) ∧
    parse_shorts_go [⟨some "-f", none, 1, .vbool false⟩] false ['f'] ["val"] []
      = .ok ([⟨some "-f", none, 1, .vstr "val"⟩], []) ∧
    parse_shorts_go [⟨some "-f", none, 1, .vbool false⟩] false ['f'] [] []
      = .error (.docoptExit ("-" ++ shortHead ⟨some "-f", none, 1, .vbool false⟩
          ++ " requires argument")) := by
  refine ⟨?_, ?_, ?_, ?_, ?_, ?_⟩
  · exact (C6_parse_shorts [] 'z' [] [] []).1 (by decide)
  · exact (C6_parse_shorts _ 'a' [] [] []).2.1 ⟨some "-a", none, 0, .vbool false⟩
      ⟨some "-ab", none, 0, .vbool false⟩ [] (by decide)
  · exact ((C6_parse_shorts _ 'a' [] [] []).2.2.1 ⟨some "-a", none, 0, .vbool false⟩
      (by decide)).1 rfl
  · exact ((C6_parse_shorts _ 'f' ['x'] [] []).2.2.1 ⟨some "-f", none, 1, .vbool false⟩
      (by decide)).2.1 (by decide) (by decide)
  · exact ((C6_parse_shorts _ 'f' [] ["val"] []).2.2.1 ⟨some "-f", none, 1, .vbool false⟩
      (by decide)).2.2.1 "val" [] (by decide) rfl rfl
  · exact ((C6_parse_shorts _ 'f' [] [] []).2.2.1 ⟨some "-f", none, 1, .vbool false⟩
      (by decide)).2.2.2 (by decide) rfl rfl

-- ===== Claims C7, C8, C9, C10 =====

/-- C7: an Argument duplicated in a branch of the either-normal form has its
value initialized to the empty list by fix (fix_identities shares equal leaves,
so the fix_list_arguments mutation reaches every occurrence); a successful match
of an accumulating Argument appends to the existing same-name entry of collected
instead of overwriting it; and usage `prog <x> <x>` with argv `a b` yields
`<x> = ["a", "b"]` in the final map, while argv `a` alone fails the match, so
docopt raises. -/
theorem C7_accumulation :
    (∀ (p : Pattern) (nm : Option String) (v : Value) (br : List Pattern),
      br ∈ p.eitherNF → (Pattern.argument nm v) ∈ br →
      1 < br.count (Pattern.argument nm v) → (Pattern.argument nm v) ∈ p.flat →
      (Pattern.argument nm (.vlist [])) ∈ p.fix.flat) ∧
    (∀ (nm : Option String) (v0 : List Value) (left c pre post : List Pattern)
        (a0 : Pattern) (vs : List Value),
      left.find? Pattern.isArgument = some a0 →
      c = pre ++ .argument nm (.vlist vs) :: post →
      (∀ x ∈ pre, sameNameArg nm x = false) →
      pmatch (.argument nm (.vlist v0)) left c
        = (true, pyRemove a0 left,
            pre ++ .argument nm (.vlist (vs ++ [a0.argValue])) :: post)) ∧
    (Pattern.required [.argument (some "<x>") .vnone, .argument (some "<x>") .vnone]).fix
      = .required [.argument (some "<x>") (.vlist []), .argument (some "<x>") (.vlist [])] ∧
    (docoptResult (.required [.argument (some "<x>") .vnone, .argument (some "<x>") .vnone])
        [] ["a", "b"]).map (fun prs => dictGet prs (some "<x>"))
      = some (some (.vlist [.vstr "a", .vstr "b"])) ∧
    (pmatch ((Pattern.required [.argument (some "<x>") .vnone,
        .argument (some "<x>") .vnone]).fix)
      [.argument none (.vstr "a")] []).1 = false ∧
    docoptResult (.required [.argument (some "<x>") .vnone, .argument (some "<x>") .vnone])
      [] ["a"] = none := by
  refine ⟨?_, ?_, by decide, by decide, by decide, by decide⟩
  · intro p nm v br hbr hmem hdup hflat
    exact fix_flat_sets_empty hbr hmem hdup hflat
  · intro nm v0 left c pre post a0 vs hfind hc hpre
    exact pmatch_argument_append nm v0 left c pre post a0 vs hfind hc hpre

/-- Witness for C7: the initialization clause at the `<x> <x>` tree and the
append clause at a collected list already holding one value. -/
theorem C7_witness :
    (Pattern.argument (some "<x>") (.vlist []))
      ∈ (Pattern.required [.argument (some "<x>") .vnone,
          .argument (some "<x>") .vnone]).fix.flat ∧
    pmatch (.argument (some "<x>") (.vlist []))
        [.argument none (.vstr "b")] [.argument (some "<x>") (.vlist [.vstr "a"])]
      = (true, [], [.argument (some "<x>") (.vlist [.vstr "a", .vstr "b"])]) := by
  constructor
  · exact C7_accumulation.1
      (.required [.argument (some "<x>") .vnone, .argument (some "<x>") .vnone])
      (some "<x>") .vnone [.argument (some "<x>") .vnone, .argument (some "<x>") .vnone]
      (by decide) (by decide) (by decide) (by decide)
  · rw [C7_accumulation.2.1 (some "<x>") [] [.argument none (.vstr "b")]
      [.argument (some "<x>") (.vlist [.vstr "a"])] [] []
      (.argument none (.vstr "b")) [.vstr "a"] (by decide) (by decide) (by decide)]
    decide

/-- C9: OneOrMore applies its single child repeatedly through `oomLoop`, which
stops as soon as an iteration leaves the residue unchanged; the node succeeds iff
the first iteration (hence at least one) matched, on success returns the loop's
final state, and the iteration terminates on every finite input: any budget
beyond `2 * left.length + 3` computes the same result, because each continuing
iteration strictly shrinks the residue. -/
theorem C9_oneOrMore_fixed_point (child : Pattern) (l c : List Pattern) :
    (pmatch (.oneOrMore [child]) l c).1 = (pmatch child l c).1 ∧
    ((pmatch (.oneOrMore [child]) l c).1 = true →
      pmatch (.oneOrMore [child]) l c
        = (true, (oomLoop (pmatch child) (2 * l.length + 3) l c none 0).2.1,
            (oomLoop (pmatch child) (2 * l.length + 3) l c none 0).2.2)) ∧
    (∀ k, oomLoop (pmatch child) (2 * l.length + 3 + k) l c none 0
        = oomLoop (pmatch child) (2 * l.length + 3) l c none 0) := by
  refine ⟨oneOrMore_matched child l c, ?_, ?_⟩
  · intro hs
    by_cases h1 : 1 ≤ (oomLoop (pmatch child) (2 * l.length + 3) l c none 0).1
    · simp only [pmatch, if_pos h1]
    · exfalso
      simp only [pmatch, if_neg h1] at hs
      simp at hs
  · intro k
    have hΦ : 2 * l.length + (if (none : Option (List Pattern)) = some l then 0 else 2)
        = 2 * l.length + 2 := by simp
    refine oomLoop_fuel_irrel (pmatch child) (fun l2 c2 => pmatch_sublist child l2 c2)
      (2 * l.length + 3) _ _ l c none 0 ?_ ?_ ?_ <;> rw [hΦ] <;> omega

/-- Witness for C9: the success clause at a OneOrMore of an Argument consuming
two leaves. -/
theorem C9_witness :
    pmatch (.oneOrMore [.argument (some "<f>") .vnone])
        [.argument none (.vstr "a"), .argument none (.vstr "b")] []
      = (true, (oomLoop (pmatch (.argument (some "<f>") .vnone)) 7
            [.argument none (.vstr "a"), .argument none (.vstr "b")] [] none 0).2.1,
          (oomLoop (pmatch (.argument (some "<f>") .vnone)) 7
            [.argument none (.vstr "a"), .argument none (.vstr "b")] [] none 0).2.2) ∧
    oomLoop (pmatch (.argument (some "<f>") .vnone)) 9
        [.argument none (.vstr "a"), .argument none (.vstr "b")] [] none 0
      = oomLoop (pmatch (.argument (some "<f>") .vnone)) 7
        [.argument none (.vstr "a"), .argument none (.vstr "b")] [] none 0 :=
  ⟨(C9_oneOrMore_fixed_point (.argument (some "<f>") .vnone)
      [.argument none (.vstr "a"), .argument none (.vstr "b")] []).2.1 (by decide),
   (C9_oneOrMore_fixed_point (.argument (some "<f>") .vnone)
      [.argument none (.vstr "a"), .argument none (.vstr "b")] []).2.2 2⟩

/-- C10: Option.match and AnyOptions.match return the collected accumulator
unchanged, and no match ever inserts an Option leaf into collected; since docopt
starts the top-level match with an empty collected (src line 465), every Option
entry of the final result map comes from the descriptor table or the argv-lexed
option list, never from the matcher's collection. -/
theorem C10_options_not_collected (o : Opt) (left c : List Pattern) :
    (pmatch (.option o) left c).2.2 = c ∧
    (pmatch .anyOptions left c).2.2 = c ∧
    (∀ p, optFree c = true → optFree (pmatch p left c).2.2 = true) :=
  ⟨rfl, rfl, fun p hc => pmatch_optFree p left c hc⟩

/-- Witness for C10: collected passes through an Option match unchanged, and a
Required tree matching an argument and an option keeps collected Option-free. -/
theorem C10_witness :
    (pmatch (.option ⟨some "-a", none, 0, .vbool false⟩)
      [.option ⟨some "-a", none, 0, .vbool true⟩]
      [.command "go" (.vbool true)]).2.2 = [.command "go" (.vbool true)] ∧
    optFree (pmatch
      (.required [.argument (some "<x>") .vnone, .option ⟨some "-a", none, 0, .vbool false⟩])
      [.argument none (.vstr "v"), .option ⟨some "-a", none, 0, .vbool true⟩] []).2.2 = true :=
  ⟨(C10_options_not_collected ⟨some "-a", none, 0, .vbool false⟩
      [.option ⟨some "-a", none, 0, .vbool true⟩] [.command "go" (.vbool true)]).1,
   (C10_options_not_collected ⟨some "-a", none, 0, .vbool false⟩
      [.argument none (.vstr "v"), .option ⟨some "-a", none, 0, .vbool true⟩] []).2.2
     (.required [.argument (some "<x>") .vnone, .option ⟨some "-a", none, 0, .vbool false⟩])
     (by decide)⟩

-- chunk S: lemmas about the sharing-aware matcher

theorem eitherOutcomesS_true : ∀ (cs l : List Pattern) (refs : List Nat)
    (heap : List Pattern) (r : Bool × List Pattern × List Nat),
    r ∈ (eitherOutcomesS cs l refs heap).1 → r.1 = true := by
  intro cs
  induction cs with
  | nil => intro l refs heap r h; simp [eitherOutcomesS] at h
  | cons p ps ih =>
      intro l refs heap r h
      simp only [eitherOutcomesS, List.mem_append] at h
      rcases h with h | h
      · split at h
        · rename_i hm
          rw [List.mem_singleton.mp h]
          exact hm
        · exact absurd h (by simp)
      · exact ih l refs _ r h

theorem pmatchS_true_or (p : Pattern) (l : List Pattern) (refs : List Nat)
    (heap : List Pattern) :
    (pmatchS p l refs heap).1 = true ∨
      ((pmatchS p l refs heap).2.1 = l ∧ (pmatchS p l refs heap).2.2.1 = refs ∧
        (pmatchS p l refs heap).1 = false) := by
  cases p with
  | argument nm v =>
      simp only [pmatchS]
      split
      · right; exact ⟨rfl, rfl, by simp⟩
      · split
        · split
          · left; simp
          · left; simp
        · left; simp
  | command nm v =>
      simp only [pmatchS]
      split
      · right; exact ⟨rfl, rfl, by simp⟩
      · split
        · left; simp
        · right; exact ⟨rfl, rfl, by simp⟩
  | option o =>
      simp only [pmatchS]
      by_cases h : l = l.filter (fun x => !optMatches o x)
      · right
        refine ⟨h.symm, by simp, ?_⟩
        exact decide_eq_false (not_not_intro h)
      · left
        exact decide_eq_true h
  | anyOptions =>
      simp only [pmatchS]
      by_cases h : l = l.filter (fun x => !Pattern.isOption x)
      · right
        refine ⟨h.symm, by simp, ?_⟩
        exact decide_eq_false (not_not_intro h)
      · left
        exact decide_eq_true h
  | required cs =>
      simp only [pmatchS]
      split
      · left; simp
      · right; exact ⟨rfl, rfl, by simp⟩
  | optionalP cs => left; rfl
  | oneOrMore cs =>
      rcases cs with _ | ⟨child, _ | ⟨c2, rest⟩⟩
      · right; exact ⟨rfl, rfl, rfl⟩
      · simp only [pmatchS]
        split
        · left; simp
        · right; exact ⟨rfl, rfl, by simp⟩
      · right; exact ⟨rfl, rfl, rfl⟩
  | either cs =>
      simp only [pmatchS]
      split
      · right; exact ⟨rfl, rfl, by simp⟩
      · rename_i o os h2 heq
        left
        have hmem : (pyMinBy (fun r : Bool × List Pattern × List Nat => r.2.1.length) o os)
            ∈ (eitherOutcomesS cs l refs heap).1 := by
          rw [heq]
          exact pyMinBy_mem (fun r : Bool × List Pattern × List Nat => r.2.1.length) o os
        simpa using eitherOutcomesS_true cs l refs heap _ hmem

theorem pmatchS_false (p : Pattern) (l : List Pattern) (refs : List Nat)
    (heap : List Pattern) (h : (pmatchS p l refs heap).1 = false) :
    (pmatchS p l refs heap).2.1 = l ∧ (pmatchS p l refs heap).2.2.1 = refs := by
  rcases pmatchS_true_or p l refs heap with h1 | h1
  · rw [h1] at h; exact absurd h (by simp)
  · exact ⟨h1.1, h1.2.1⟩

set_option maxRecDepth 8192 in
/-- C2 (counterexample to the original claim): Either children do not run on
copies of the collected objects. For usage `prog <x> (<x> -a | <x> -b)` (tree
`patXab`, fixed to `patXabFixed`) and argv `a b -b` (`argvXab`), the first
branch appends "b" to the shared accumulating `<x>` entry before failing on
`-a`, the second branch appends again, and the sharing-aware matcher answers
`<x> = ["a", "b", "b"]` — Python's result — while the copy-semantics value
would be `["a", "b"]`. An Either all of whose branches fail likewise returns
its input lists but a mutated heap. -/
theorem C2_counterexample :
    patXab.fix = patXabFixed ∧
    pmatchS patXabFixed argvXab [] []
      = (true, [], [0], [.argument (some "<x>") (.vlist [.vstr "a", .vstr "b", .vstr "b"])]) ∧
    derefAll [.argument (some "<x>") (.vlist [.vstr "a", .vstr "b", .vstr "b"])] [0]
      ≠ (pmatch patXabFixed argvXab []).2.2 ∧
    pmatch patXabFixed argvXab []
      = (true, [], [.argument (some "<x>") (.vlist [.vstr "a", .vstr "b"])]) ∧
    pmatchS (.either [.required [.argument (some "<x>") (.vlist []), .option optA]])
        [.argument none (.vstr "b")] [0] [.argument (some "<x>") (.vlist [.vstr "a"])]
      = (false, [.argument none (.vstr "b")], [0],
         [.argument (some "<x>") (.vlist [.vstr "a", .vstr "b"])]) := by
  refine ⟨by decide, by decide, by decide, by decide, by decide⟩

/-- C2 (amended): Either.match tries each child on the same left and collected
LIST values, but the heap of shared collected objects is threaded from one
child to the next, so an accumulating append made by a branch is visible to the
following branches and survives even when that branch fails or is not selected.
Among the succeeding outcomes (all of which did succeed) it returns the one
with the smallest residual left, the first such outcome on ties; when no child
succeeds it returns the input lists together with the possibly mutated heap.
Usage `(-a | -a -b)` with argv `-a -b` still selects the second branch. -/
theorem C2_either_shared_state :
    (∀ (p : Pattern) (ps l : List Pattern) (refs : List Nat) (heap : List Pattern),
      eitherOutcomesS (p :: ps) l refs heap
        = ((if (pmatchS p l refs heap).1 then
              [((pmatchS p l refs heap).1, (pmatchS p l refs heap).2.1,
                (pmatchS p l refs heap).2.2.1)]
            else [])
            ++ (eitherOutcomesS ps l refs (pmatchS p l refs heap).2.2.2).1,
           (eitherOutcomesS ps l refs (pmatchS p l refs heap).2.2.2).2)) ∧
    (∀ (cs l : List Pattern) (refs : List Nat) (heap : List Pattern),
      (eitherOutcomesS cs l refs heap).1 = [] →
      pmatchS (.either cs) l refs heap
        = (false, l, refs, (eitherOutcomesS cs l refs heap).2)) ∧
    (∀ (cs l : List Pattern) (refs : List Nat) (heap : List Pattern)
        (o : Bool × List Pattern × List Nat) (os : List (Bool × List Pattern × List Nat)),
      (eitherOutcomesS cs l refs heap).1 = o :: os →
      pmatchS (.either cs) l refs heap
        = ((pyMinBy (fun r : Bool × List Pattern × List Nat => r.2.1.length) o os).1,
           (pyMinBy (fun r : Bool × List Pattern × List Nat => r.2.1.length) o os).2.1,
           (pyMinBy (fun r : Bool × List Pattern × List Nat => r.2.1.length) o os).2.2,
           (eitherOutcomesS cs l refs heap).2) ∧
      (∀ y ∈ o :: os,
        (pyMinBy (fun r : Bool × List Pattern × List Nat => r.2.1.length) o os).2.1.length
          ≤ y.2.1.length) ∧
      (∃ pre post, o :: os
          = pre ++ pyMinBy (fun r : Bool × List Pattern × List Nat => r.2.1.length) o os
              :: post ∧
        ∀ y ∈ pre,
          (pyMinBy (fun r : Bool × List Pattern × List Nat => r.2.1.length) o os).2.1.length
            < y.2.1.length) ∧
      (pyMinBy (fun r : Bool × List Pattern × List Nat => r.2.1.length) o os).1 = true) ∧
    (∀ (cs l : List Pattern) (refs : List Nat) (heap : List Pattern)
        (r : Bool × List Pattern × List Nat),
      r ∈ (eitherOutcomesS cs l refs heap).1 → r.1 = true) ∧
    pmatchS (.either [.required [.option optA], .required [.option optA, .option optB]])
        [.option ⟨some "-a", none, 0, .vbool true⟩, .option ⟨some "-b", none, 0, .vbool true⟩]
        [] []
      = pmatchS (.required [.option optA, .option optB])
        [.option ⟨some "-a", none, 0, .vbool true⟩, .option ⟨some "-b", none, 0, .vbool true⟩]
        [] [] := by
  refine ⟨?_, ?_, ?_, ?_, by decide⟩
  · intro p ps l refs heap
    rfl
  · intro cs l refs heap h
    obtain ⟨h2, hE⟩ : ∃ h2, eitherOutcomesS cs l refs heap = ([], h2) :=
      ⟨_, Prod.ext h rfl⟩
    simp only [pmatchS, hE]
  · intro cs l refs heap o os h
    obtain ⟨h2, hE⟩ : ∃ h2, eitherOutcomesS cs l refs heap = (o :: os, h2) :=
      ⟨_, Prod.ext h rfl⟩
    refine ⟨?_, ?_, ?_, ?_⟩
    · simp only [pmatchS, hE]
    · intro y hy
      exact pyMinBy_le (fun r : Bool × List Pattern × List Nat => r.2.1.length) o os y hy
    · exact pyMinBy_split (fun r : Bool × List Pattern × List Nat => r.2.1.length) o os
    · have hmem :
          pyMinBy (fun r : Bool × List Pattern × List Nat => r.2.1.length) o os
            ∈ (eitherOutcomesS cs l refs heap).1 := by
        rw [hE]
        exact pyMinBy_mem (fun r : Bool × List Pattern × List Nat => r.2.1.length) o os
      exact eitherOutcomesS_true cs l refs heap _ hmem
  · intro cs l refs heap r hr
    exact eitherOutcomesS_true cs l refs heap r hr

/-- Witness for C2: the no-branch-succeeds clause at a failing single branch and
the min-selection clause at the `(-a | -a -b)` example, whose outcome list is
`[(true, [-b], []), (true, [], [])]`, so the second branch (residue length 0)
beats the first (length 1). -/
theorem C2_witness :
    pmatchS (.either [.required [.option optA]]) [.argument none (.vstr "z")] [] []
      = (false, [.argument none (.vstr "z")], [], []) ∧
    pmatchS (.either [.required [.option optA], .required [.option optA, .option optB]])
        [.option ⟨some "-a", none, 0, .vbool true⟩, .option ⟨some "-b", none, 0, .vbool true⟩]
        [] []
      = (true, [], [], []) := by
  constructor
  · have h := C2_either_shared_state.2.1 [.required [.option optA]]
      [.argument none (.vstr "z")] [] [] (by decide)
    rw [h]
    decide
  · have h := (C2_either_shared_state.2.2.1
      [.required [.option optA], .required [.option optA, .option optB]]
      [.option ⟨some "-a", none, 0, .vbool true⟩, .option ⟨some "-b", none, 0, .vbool true⟩]
      [] [] (true, [.option ⟨some "-b", none, 0, .vbool true⟩], []) [(true, [], [])]
      (by decide)).1
    rw [h]
    decide

/-- C8 (counterexample to the original claim): a failing composite does NOT
leave collected unchanged. Matching `Required(Argument(<x>, []), Option(-a))`
against the single leaf `b` with one collected `<x> = ["a"]` entry first runs
the Argument child, which appends "b" in place to the shared entry, then fails
on the Option child; the failure returns the input left and collected lists,
but the object they share now reads `<x> = ["a", "b"]`. The copy-semantics
matcher `pmatch` instead reports collected unchanged. -/
theorem C8_counterexample :
    pmatchS (.required [.argument (some "<x>") (.vlist []), .option optA])
        [.argument none (.vstr "b")] [0] [.argument (some "<x>") (.vlist [.vstr "a"])]
      = (false, [.argument none (.vstr "b")], [0],
         [.argument (some "<x>") (.vlist [.vstr "a", .vstr "b"])]) ∧
    derefAll [.argument (some "<x>") (.vlist [.vstr "a", .vstr "b"])] [0]
      ≠ derefAll [.argument (some "<x>") (.vlist [.vstr "a"])] [0] ∧
    pmatch (.required [.argument (some "<x>") (.vlist []), .option optA])
        [.argument none (.vstr "b")] [.argument (some "<x>") (.vlist [.vstr "a"])]
      = (false, [.argument none (.vstr "b")], [.argument (some "<x>") (.vlist [.vstr "a"])]) := by
  refine ⟨by decide, by decide, by decide⟩

/-- C8 (amended): when a match fails it returns the very left and collected
LISTS it was given — same leaf objects for left, same references for collected —
but the values of shared accumulating entries may have been appended to in
place by children that succeeded before the failure. Leaf failures change
nothing at all: a failing Argument or Command returns its full input state
including the heap, and Option and AnyOptions never touch the heap. An Optional
node never fails, and its fold always proceeds to the next child on the state
the previous child returned. -/
theorem C8_failure_lists_unchanged :
    (∀ (p : Pattern) (l : List Pattern) (refs : List Nat) (heap : List Pattern),
      (pmatchS p l refs heap).1 = false →
      (pmatchS p l refs heap).2.1 = l ∧ (pmatchS p l refs heap).2.2.1 = refs) ∧
    (∀ (cs l : List Pattern) (refs : List Nat) (heap : List Pattern),
      (pmatchS (.optionalP cs) l refs heap).1 = true) ∧
    (∀ (p : Pattern) (ps l : List Pattern) (refs : List Nat) (heap : List Pattern),
      optionalFoldS (p :: ps) l refs heap
        = optionalFoldS ps (pmatchS p l refs heap).2.1 (pmatchS p l refs heap).2.2.1
            (pmatchS p l refs heap).2.2.2) ∧
    (∀ (nm : Option String) (v : Value) (l : List Pattern) (refs : List Nat)
        (heap : List Pattern),
      (pmatchS (.argument nm v) l refs heap).1 = false →
      pmatchS (.argument nm v) l refs heap = (false, l, refs, heap)) ∧
    (∀ (nm : String) (v : Value) (l : List Pattern) (refs : List Nat) (heap : List Pattern),
      (pmatchS (.command nm v) l refs heap).1 = false →
      pmatchS (.command nm v) l refs heap = (false, l, refs, heap)) ∧
    (∀ (o : Opt) (l : List Pattern) (refs : List Nat) (heap : List Pattern),
      (pmatchS (.option o) l refs heap).2.2.2 = heap) ∧
    (∀ (l : List Pattern) (refs : List Nat) (heap : List Pattern),
      (pmatchS .anyOptions l refs heap).2.2.2 = heap) := by
  refine ⟨?_, ?_, ?_, ?_, ?_, ?_, ?_⟩
  · intro p l refs heap h
    exact pmatchS_false p l refs heap h
  · intro cs l refs heap
    rfl
  · intro p ps l refs heap
    rfl
  · intro nm v l refs heap
    simp only [pmatchS]
    split
    · intro _
      rfl
    · split
      · split
        · intro h
          simp at h
        · intro h
          simp at h
      · intro h
        simp at h
  · intro nm v l refs heap
    simp only [pmatchS]
    split
    · intro _
      rfl
    · split
      · intro h
        simp at h
      · intro _
        rfl
  · intro o l refs heap
    rfl
  · intro l refs heap
    rfl

/-- Witness for C8: the general clause at the failing Required of the
counterexample (lists returned unchanged although the heap was mutated), the
Argument-leaf clause at an empty left, and the Optional clause at a concrete
node. -/
theorem C8_witness :
    ((pmatchS (.required [.argument (some "<x>") (.vlist []), .option optA])
        [.argument none (.vstr "b")] [0] [.argument (some "<x>") (.vlist [.vstr "a"])]).2.1
      = [.argument none (.vstr "b")] ∧
     (pmatchS (.required [.argument (some "<x>") (.vlist []), .option optA])
        [.argument none (.vstr "b")] [0] [.argument (some "<x>") (.vlist [.vstr "a"])]).2.2.1
      = [0]) ∧
    pmatchS (.argument (some "<q>") .vnone) [] [3] [.command "c" (.vbool true)]
      = (false, [], [3], [.command "c" (.vbool true)]) ∧
    (pmatchS (.optionalP [.option optA]) [] [] []).1 = true := by
  refine ⟨?_, ?_, ?_⟩
  · exact C8_failure_lists_unchanged.1 _ _ _ _ (by decide)
  · exact C8_failure_lists_unchanged.2.2.2.1 (some "<q>") .vnone [] [3]
      [.command "c" (.vbool true)] (by decide)
  · exact C8_failure_lists_unchanged.2.1 [.option optA] [] [] []

end Docopt
